import Mathlib

/-!
Verification development for the Component Radar Figma plugin
(scan-engine.ts, code.ts, db.ts, exporter.ts, types.ts).

The TypeScript sources are shallowly embedded as executable Lean
definitions.  Machine integers are modelled as Nat (all quantities
involved are small counters, lengths and timestamps).  The JavaScript
event loop plays no semantic role in the embedded fragments: the scan
engine is single threaded and every await point only interleaves
observations of the shared abort flag, which is modelled below by an
explicit observation schedule.  Loops whose queues can grow (the BFS
work lists) are written with an explicit fuel argument so that they
remain structurally recursive and kernel reducible; the wrappers
instantiate the fuel with the exact number of reachable nodes, and a
fuel irrelevance lemma shows the bound is never hit.
-/

namespace ComponentRadar

/-- Classification of an occurrence, from types.ts
(`instanceType: "direct" | "nested" | "remote"`). -/
inductive InstanceType where
  | direct
  | nested
  | remote
deriving DecidableEq, Repr

/-- One detected usage, from types.ts `ComponentUsageRecord`. -/
structure ComponentUsageRecord where
  id : String
  fileName : String
  fileKey : String
  pageName : String
  pageId : String
  nodeName : String
  nodeId : String
  instanceType : InstanceType
  path : List String
  variant : Option String
  timestamp : Nat
deriving DecidableEq, Repr

/-- Metadata of the master component being scanned, from types.ts
`MasterComponentInfo`.  Optional TS fields become Option. -/
structure MasterComponentInfo where
  id : String
  key : String
  name : String
  variantProperties : Option (List (String × String))
  isRemote : Bool
  libraryName : Option String
  sessionId : String
deriving DecidableEq, Repr

/-- Scan result summary, from types.ts `ScanResult`. -/
structure ScanResult where
  sessionId : String
  masterComponent : MasterComponentInfo
  totalInstances : Nat
  records : List ComponentUsageRecord
  scanDuration : Nat
  timestamp : Nat
  errors : List String
deriving DecidableEq, Repr

/-- Resolved main-component handle of a live instance node, i.e. the
value produced by the Figma API call `instance.getMainComponentAsync()`
as consumed by `ScanEngine.classifyNode` (fields `id`, `key`,
`remote`). -/
structure MainComponentHandle where
  id : String
  key : String
  remote : Bool
deriving DecidableEq, Repr

/-- Live in-memory scene node, as consumed by the scan engine: the node
fields read by `ScanEngine.traverseNode` / `classifyNode` are `type`,
`name`, `id`, `children`, and, for instances, the resolved main
component and `variantProperties`.  A TS node without a `children`
property is modelled by an empty child list (the engine only ever
iterates over the children, so absence and emptiness coincide). -/
inductive SceneNode where
  | mk (id name type : String) (mainComponent : Option MainComponentHandle)
       (variantProperties : Option (List (String × String)))
       (children : List SceneNode)

/-- Projection of the `id` field. -/
def SceneNode.id : SceneNode → String
  | .mk i _ _ _ _ _ => i

/-- Projection of the `name` field. -/
def SceneNode.name : SceneNode → String
  | .mk _ n _ _ _ _ => n

/-- Projection of the `type` field. -/
def SceneNode.type : SceneNode → String
  | .mk _ _ t _ _ _ => t

/-- Projection of the resolved main component. -/
def SceneNode.mainComponent : SceneNode → Option MainComponentHandle
  | .mk _ _ _ m _ _ => m

/-- Projection of the `variantProperties` field. -/
def SceneNode.variantProperties : SceneNode → Option (List (String × String))
  | .mk _ _ _ _ v _ => v

/-- Projection of the `children` field. -/
def SceneNode.children : SceneNode → List SceneNode
  | .mk _ _ _ _ _ cs => cs

mutual

/-- Number of nodes in a subtree (used as loop fuel: one BFS dequeue
consumes exactly one reachable node). -/
def SceneNode.nodeCount : SceneNode → Nat
  | .mk _ _ _ _ _ cs => 1 + SceneNode.nodeCountList cs

/-- Total node count of a forest. -/
def SceneNode.nodeCountList : List SceneNode → Nat
  | [] => 0
  | c :: cs => SceneNode.nodeCount c + SceneNode.nodeCountList cs

end

/-- Node classification result, from types.ts `NodeClassification`. -/
structure NodeClassification where
  isInstance : Bool
  isDirect : Bool
  isNested : Bool
  isRemote : Bool
  masterComponentKey : Option String
  variant : Option String
deriving DecidableEq, Repr

/-- Rendering of `variantProperties` used by `classifyNode`:
`Object.entries(vp).map(([key, value]) => key + "=" + value).join(", ")`. -/
def variantString (vp : List (String × String)) : String :=
  String.intercalate ", " (vp.map (fun kv => kv.1 ++ "=" ++ kv.2))

/-- Embedding of `ScanEngine.classifyNode` (scan-engine.ts).  The
engine state field `this.masterComponent` is passed explicitly; the
console logging is pure output and is omitted. -/
def classifyNode (masterComponent : Option MasterComponentInfo)
    (node : SceneNode) (path : List String) : Option NodeClassification :=
  match masterComponent with
  | none => none
  | some master =>
    if node.type ≠ "INSTANCE" then none
    else
      match node.mainComponent with
      | none => none
      | some mainComponent =>
        let isDirect := mainComponent.id = master.id
        let isSameKey := mainComponent.key = master.key
        if ¬ isDirect ∧ ¬ isSameKey then none
        else
          let isNested := path.length > 1
          let isRemote := mainComponent.remote
          let variant := node.variantProperties.map variantString
          some { isInstance := true, isDirect := isDirect, isNested := isNested,
                 isRemote := isRemote,
                 masterComponentKey := some mainComponent.key, variant := variant }

/-- Static per-traversal context of `traverseNode`: the engine state
and arguments that stay fixed while the BFS loop runs.  `now` models
the value of `Date.now()` (frozen for the scan; only the `id` and
`timestamp` record fields depend on it and no claim concerns their
exact value). -/
structure LiveCtx where
  masterComponent : Option MasterComponentInfo
  fileKey : String
  fileName : String
  pageName : String
  pageId : String
  now : Nat
deriving Repr

/-- Record constructed by the match branch of `traverseNode` for a
matching instance (scan-engine.ts, `const record = {...}` inside the
BFS loop). -/
def liveRecord (ctx : LiveCtx) (c : NodeClassification)
    (n : SceneNode) (p : List String) : ComponentUsageRecord :=
  { id := ctx.fileKey ++ "-" ++ n.id ++ "-" ++ toString ctx.now
    fileName := ctx.fileName
    fileKey := ctx.fileKey
    pageName := ctx.pageName
    pageId := ctx.pageId
    nodeName := n.name
    nodeId := n.id
    instanceType :=
      if c.isNested then .nested else if c.isRemote then .remote else .direct
    path := p
    variant := c.variant
    timestamp := ctx.now }

/-- The effect of one loop body of `traverseNode` on `this.records`:
classify the dequeued node and push a record on a positive match.
Returns the emitted record, if any. -/
def liveEmit (ctx : LiveCtx) (n : SceneNode) (p : List String) :
    Option ComponentUsageRecord :=
  match classifyNode ctx.masterComponent n p with
  | some c => if c.isInstance then some (liveRecord ctx c n p) else none
  | none => none

/-- Work-list entries of the live BFS: the dequeued node together with
its breadcrumb path. -/
abbrev LiveEntry := SceneNode × List String

/-- Fuel needed to drain a live work list: total number of reachable
nodes. -/
def liveQueueFuel (q : List LiveEntry) : Nat :=
  (q.map (fun e => e.1.nodeCount)).sum

/-- Fuel-indexed embedding of the `while` loop of
`ScanEngine.traverseNode`.  `ab` is the schedule of observations of the
shared `this.aborted` flag (one observation per loop-condition check,
numbered by `i`); `recs` is the current `this.records`.  The
cooperative `setTimeout(0)` yield has no effect on the computed state
and is omitted.  The fuel argument is a modelling device only: with
`fuel ≥ liveQueueFuel q` the exhaustion branch is unreachable (see
`liveLoopF_fuel_irrelevant`). -/
def liveLoopF (ctx : LiveCtx) (ab : Nat → Bool) :
    Nat → Nat → List LiveEntry → List ComponentUsageRecord →
    List ComponentUsageRecord
  | 0, _, _, recs => recs
  | _ + 1, _, [], recs => recs
  | fuel + 1, i, (n, p) :: rest, recs =>
    if ab i then recs
    else
      let recs' := match liveEmit ctx n p with
        | some r => recs ++ [r]
        | none => recs
      liveLoopF ctx ab fuel (i + 1)
        (rest ++ n.children.map (fun c => (c, p ++ [c.name]))) recs'

/-- The BFS loop of `ScanEngine.traverseNode`, with the fuel
instantiated to the exact number of reachable nodes. -/
def liveLoop (ctx : LiveCtx) (ab : Nat → Bool) (i : Nat)
    (q : List LiveEntry) (recs : List ComponentUsageRecord) :
    List ComponentUsageRecord :=
  liveLoopF ctx ab (liveQueueFuel q) i q recs

/-- Embedding of `ScanEngine.traverseNode` (scan-engine.ts): entry
abort check, then the BFS loop seeded with the root tagged by
`parentPath.concat([node.name])`.  All call sites in the source use the
default `parentPath = []`. -/
def traverseNode (ctx : LiveCtx) (ab : Nat → Bool) (i : Nat)
    (node : SceneNode) (parentPath : List String)
    (recs : List ComponentUsageRecord) : List ComponentUsageRecord :=
  if ab i then recs
  else liveLoop ctx ab (i + 1) [(node, parentPath ++ [node.name])] recs

/-- Embedding of `ScanEngine.scanPage` (scan-engine.ts): traverse each
top-level child of the page in order, with the abort schedule never
firing (the uncancelled run; cancellation is analysed at the loop
level).  Pages expose `name`, `id` and `children`; a page is modelled
by a SceneNode. -/
def scanPage (masterComponent : Option MasterComponentInfo)
    (page : SceneNode) (fileKey fileName : String) (now : Nat)
    (recs : List ComponentUsageRecord) : List ComponentUsageRecord :=
  let ctx : LiveCtx :=
    { masterComponent := masterComponent, fileKey := fileKey,
      fileName := fileName, pageName := page.name, pageId := page.id,
      now := now }
  page.children.foldl
    (fun acc child => traverseNode ctx (fun _ => false) 0 child [] acc) recs

-- Basic lemmas about the live BFS loop.

/-- Forest node count as a sum over the children. -/
theorem nodeCountList_eq_sum (l : List SceneNode) :
    SceneNode.nodeCountList l = (l.map SceneNode.nodeCount).sum := by
  induction l with
  | nil => simp [SceneNode.nodeCountList]
  | cons x xs ih => simp [SceneNode.nodeCountList, ih]

/-- Every subtree contains at least its root. -/
theorem nodeCount_pos (n : SceneNode) : 1 ≤ n.nodeCount := by
  cases n with
  | mk a b c d e cs => simp [SceneNode.nodeCount]

/-- Fuel of a cons work list. -/
theorem liveQueueFuel_cons (n : SceneNode) (p : List String)
    (rest : List LiveEntry) :
    liveQueueFuel ((n, p) :: rest) = n.nodeCount + liveQueueFuel rest := by
  simp [liveQueueFuel]

/-- Fuel of a concatenated work list. -/
theorem liveQueueFuel_append (a b : List LiveEntry) :
    liveQueueFuel (a ++ b) = liveQueueFuel a + liveQueueFuel b := by
  simp [liveQueueFuel]

/-- Fuel of a freshly enqueued child block. -/
theorem liveQueueFuel_children (p : List String) (cs : List SceneNode) :
    liveQueueFuel (cs.map (fun c => (c, p ++ [c.name]))) =
      (cs.map SceneNode.nodeCount).sum := by
  unfold liveQueueFuel
  rw [List.map_map]
  rfl

/-- One BFS dequeue consumes exactly one unit of fuel. -/
theorem liveStep_fuel (n : SceneNode) (p : List String)
    (rest : List LiveEntry) :
    liveQueueFuel (rest ++ n.children.map (fun c => (c, p ++ [c.name]))) + 1 =
      liveQueueFuel ((n, p) :: rest) := by
  rw [liveQueueFuel_append, liveQueueFuel_children, liveQueueFuel_cons]
  cases n with
  | mk a b c d e cs =>
    simp only [SceneNode.children, SceneNode.nodeCount,
      nodeCountList_eq_sum]
    omega

/-- The live loop ignores its fuel on an empty work list. -/
theorem liveLoopF_nil (ctx : LiveCtx) (ab : Nat → Bool) (fuel i : Nat)
    (recs : List ComponentUsageRecord) :
    liveLoopF ctx ab fuel i [] recs = recs := by
  cases fuel <;> rfl

/-- Any two sufficient fuels drive the loop to the same result. -/
theorem liveLoopF_fuel_mono (ctx : LiveCtx) (ab : Nat → Bool) :
    ∀ (fuel fuel' : Nat) (q : List LiveEntry) (i : Nat)
      (recs : List ComponentUsageRecord),
      liveQueueFuel q ≤ fuel → liveQueueFuel q ≤ fuel' →
      liveLoopF ctx ab fuel i q recs = liveLoopF ctx ab fuel' i q recs := by
  intro fuel
  induction fuel with
  | zero =>
    intro fuel' q i recs h h'
    have hq : q = [] := by
      cases q with
      | nil => rfl
      | cons e rest =>
        exfalso
        obtain ⟨n, p⟩ := e
        have := liveQueueFuel_cons n p rest
        have := nodeCount_pos n
        omega
    subst hq
    rw [liveLoopF_nil, liveLoopF_nil]
  | succ fuel ih =>
    intro fuel' q i recs h h'
    cases q with
    | nil => rw [liveLoopF_nil, liveLoopF_nil]
    | cons e rest =>
      obtain ⟨n, p⟩ := e
      have hstep := liveStep_fuel n p rest
      have hpos := nodeCount_pos n
      have hc := liveQueueFuel_cons n p rest
      cases fuel' with
      | zero => omega
      | succ fuel' =>
        cases hab : ab i with
        | true => simp only [liveLoopF, hab, if_true]
        | false =>
          simp only [liveLoopF, hab, Bool.false_eq_true, if_false]
          exact ih fuel' _ _ _ (by omega) (by omega)

/-- With more fuel than reachable nodes the exhaustion branch is dead:
the loop result only depends on the work list. -/
theorem liveLoopF_fuel_irrelevant (ctx : LiveCtx) (ab : Nat → Bool)
    (fuel : Nat) (q : List LiveEntry) (i : Nat)
    (recs : List ComponentUsageRecord) (h : liveQueueFuel q ≤ fuel) :
    liveLoopF ctx ab fuel i q recs = liveLoop ctx ab i q recs :=
  liveLoopF_fuel_mono ctx ab fuel (liveQueueFuel q) q i recs h (le_refl _)

/-- Unfolding equation for the loop wrapper on an empty work list. -/
theorem liveLoop_nil (ctx : LiveCtx) (ab : Nat → Bool) (i : Nat)
    (recs : List ComponentUsageRecord) :
    liveLoop ctx ab i [] recs = recs := by
  simp [liveLoop, liveQueueFuel, liveLoopF]

/-- Unfolding equation for the loop wrapper on a one-step dequeue. -/
theorem liveLoop_cons (ctx : LiveCtx) (ab : Nat → Bool) (i : Nat)
    (n : SceneNode) (p : List String) (rest : List LiveEntry)
    (recs : List ComponentUsageRecord) :
    liveLoop ctx ab i ((n, p) :: rest) recs =
      if ab i then recs
      else
        liveLoop ctx ab (i + 1)
          (rest ++ n.children.map (fun c => (c, p ++ [c.name])))
          (match liveEmit ctx n p with
            | some r => recs ++ [r]
            | none => recs) := by
  have hpos := nodeCount_pos n
  have hc := liveQueueFuel_cons n p rest
  obtain ⟨fuel, hfuel⟩ : ∃ fuel, liveQueueFuel ((n, p) :: rest) = fuel + 1 :=
    ⟨liveQueueFuel ((n, p) :: rest) - 1, by omega⟩
  rw [liveLoop, hfuel]
  cases hab : ab i with
  | true => simp [liveLoopF, hab]
  | false =>
    simp only [liveLoopF, hab, Bool.false_eq_true, if_false]
    apply liveLoopF_fuel_irrelevant
    have hstep := liveStep_fuel n p rest
    omega

/-- The loop only appends to `this.records`: the result is the initial
record list followed by the emissions of the run. -/
theorem liveLoopF_append (ctx : LiveCtx) (ab : Nat → Bool) :
    ∀ (fuel : Nat) (q : List LiveEntry) (i : Nat)
      (recs : List ComponentUsageRecord),
      liveLoopF ctx ab fuel i q recs = recs ++ liveLoopF ctx ab fuel i q [] := by
  intro fuel
  induction fuel with
  | zero => intro q i recs; simp [liveLoopF]
  | succ fuel ih =>
    intro q i recs
    cases q with
    | nil => simp [liveLoopF]
    | cons e rest =>
      obtain ⟨n, p⟩ := e
      cases hab : ab i with
      | true => simp [liveLoopF, hab]
      | false =>
        simp only [liveLoopF, hab, Bool.false_eq_true, if_false]
        cases hemit : liveEmit ctx n p with
        | none =>
          exact ih _ _ _
        | some r =>
          rw [ih _ _ (recs ++ [r]), ih _ _ ([] ++ [r])]
          simp

/-- Fields of a record emitted by the live loop body: the breadcrumb
path, node name and page name are taken from the dequeued entry and the
traversal context. -/
theorem liveEmit_fields (ctx : LiveCtx) (n : SceneNode) (p : List String)
    (r : ComponentUsageRecord) (h : liveEmit ctx n p = some r) :
    r.path = p ∧ r.nodeName = n.name ∧ r.pageName = ctx.pageName ∧
      ∃ c, classifyNode ctx.masterComponent n p = some c ∧
        r = liveRecord ctx c n p := by
  unfold liveEmit at h
  split at h
  next c heq =>
    split at h
    next hi =>
      obtain rfl : liveRecord ctx c n p = r := by injection h
      exact ⟨rfl, rfl, rfl, c, heq, rfl⟩
    next hi => exact absurd h (by simp)
  next heq => exact absurd h (by simp)

/-- Every record produced by the loop either was already in the record
list or is the emission of some work-list entry; positions reachable
from the initial work list are closed under taking children, and this
closure is all the loop ever dequeues. -/
theorem liveLoopF_emit_source (ctx : LiveCtx) (ab : Nat → Bool)
    (G : SceneNode → List String → Prop)
    (hstep : ∀ n p, G n p → ∀ c ∈ n.children, G c (p ++ [c.name])) :
    ∀ (fuel : Nat) (q : List LiveEntry) (i : Nat)
      (recs : List ComponentUsageRecord),
      (∀ e ∈ q, G e.1 e.2) →
      ∀ r ∈ liveLoopF ctx ab fuel i q recs,
        r ∈ recs ∨ ∃ n p, G n p ∧ liveEmit ctx n p = some r := by
  intro fuel
  induction fuel with
  | zero => intro q i recs hq r hr; exact Or.inl hr
  | succ fuel ih =>
    intro q i recs hq r hr
    cases q with
    | nil => exact Or.inl hr
    | cons e rest =>
      obtain ⟨n, p⟩ := e
      cases hab : ab i with
      | true =>
        rw [show liveLoopF ctx ab (fuel + 1) i ((n, p) :: rest) recs = recs by
          simp [liveLoopF, hab]] at hr
        exact Or.inl hr
      | false =>
        simp only [liveLoopF, hab, Bool.false_eq_true, if_false] at hr
        have hGn : G n p := hq (n, p) (by simp)
        have hq' : ∀ e ∈ rest ++ n.children.map (fun c => (c, p ++ [c.name])),
            G e.1 e.2 := by
          intro e he
          rcases List.mem_append.mp he with h1 | h2
          · exact hq e (List.mem_cons_of_mem _ h1)
          · obtain ⟨c, hc, rfl⟩ := List.mem_map.mp h2
            exact hstep n p hGn c hc
        cases hemit : liveEmit ctx n p with
        | none =>
          rw [hemit] at hr
          exact ih _ _ _ hq' r hr
        | some r0 =>
          rw [hemit] at hr
          rcases ih _ _ _ hq' r hr with hin | hsrc
          · rcases List.mem_append.mp hin with h1 | h2
            · exact Or.inl h1
            · obtain rfl : r0 = r := by
                cases List.mem_singleton.mp h2; rfl
              exact Or.inr ⟨n, p, hGn, hemit⟩
          · exact Or.inr hsrc

/-- Emitted records are at least as deep as a uniform lower bound on
the work list. -/
theorem liveLoopF_depth_lower (ctx : LiveCtx) (ab : Nat → Bool)
    (fuel : Nat) (q : List LiveEntry) (i : Nat) (d : Nat)
    (hq : ∀ e ∈ q, d ≤ e.2.length) :
    ∀ r ∈ liveLoopF ctx ab fuel i q [], d ≤ r.path.length := by
  intro r hr
  have hsrc := liveLoopF_emit_source ctx ab (fun n p => d ≤ p.length)
    (by
      intro n p hp c hc
      simp only [List.length_append, List.length_cons, List.length_nil]
      omega)
    fuel q i [] (by intro e he; exact hq e he) r hr
  rcases hsrc with hin | ⟨n, p, hp, hemit⟩
  · cases hin
  · have := (liveEmit_fields ctx n p r hemit).1
    rw [this]
    exact hp

/-- Level-order invariant of the BFS work list: depths are
nondecreasing and span at most two consecutive levels. -/
def DepthInv (q : List LiveEntry) : Prop :=
  ∃ d0, List.Pairwise (· ≤ ·) (q.map (fun e => e.2.length)) ∧
    ∀ e ∈ q, d0 ≤ e.2.length ∧ e.2.length ≤ d0 + 1

/-- A singleton work list satisfies the level-order invariant. -/
theorem depthInv_singleton (n : SceneNode) (p : List String) :
    DepthInv [(n, p)] := by
  exact ⟨p.length, by simp, by intro e he; cases List.mem_singleton.mp he; simp⟩

/-- The level-order invariant is preserved by one BFS step, with the
depth of the dequeued entry as the new base level. -/
theorem depthInv_step (n : SceneNode) (p : List String)
    (rest : List LiveEntry) (h : DepthInv ((n, p) :: rest)) :
    List.Pairwise (· ≤ ·)
      ((rest ++ n.children.map (fun c => (c, p ++ [c.name]))).map
        (fun e => e.2.length)) ∧
    ∀ e ∈ rest ++ n.children.map (fun c => (c, p ++ [c.name])),
      p.length ≤ e.2.length ∧ e.2.length ≤ p.length + 1 := by
  obtain ⟨d0, hpair, hbound⟩ := h
  have hnp : d0 ≤ p.length ∧ p.length ≤ d0 + 1 := hbound (n, p) (by simp)
  simp only [List.map_cons, List.pairwise_cons] at hpair
  have hrest : ∀ e ∈ rest, p.length ≤ e.2.length ∧ e.2.length ≤ p.length + 1 := by
    intro e he
    have h1 : p.length ≤ e.2.length :=
      hpair.1 _ (List.mem_map_of_mem (fun e => e.2.length) he)
    have h2 : d0 ≤ e.2.length ∧ e.2.length ≤ d0 + 1 :=
      hbound e (List.mem_cons_of_mem _ he)
    exact ⟨h1, by omega⟩
  constructor
  · rw [List.map_append]
    rw [List.pairwise_append]
    refine ⟨hpair.2, ?_, ?_⟩
    · have hconst : ∀ x ∈ (n.children.map (fun c => (c, p ++ [c.name]))).map
          (fun e => e.2.length), x = p.length + 1 := by
        intro x hx
        rw [List.map_map] at hx
        obtain ⟨c, hc, rfl⟩ := List.mem_map.mp hx
        simp
      refine List.pairwise_of_forall_mem_list ?_
      intro a ha b hb
      rw [hconst a ha, hconst b hb]
    · intro a ha b hb
      obtain ⟨ea, hea, rfl⟩ := List.mem_map.mp ha
      rw [List.map_map] at hb
      obtain ⟨c, hc, rfl⟩ := List.mem_map.mp hb
      have h1 := hrest ea hea
      simp only [Function.comp]
      simp only [List.length_append, List.length_cons, List.length_nil]
      omega
  · intro e he
    rcases List.mem_append.mp he with h1 | h2
    · exact hrest e h1
    · obtain ⟨c, hc, rfl⟩ := List.mem_map.mp h2
      simp

/-- Under the level-order invariant the loop emissions have
nondecreasing breadcrumb depth. -/
theorem liveLoopF_chain (ctx : LiveCtx) (ab : Nat → Bool) :
    ∀ (fuel : Nat) (q : List LiveEntry) (i : Nat), DepthInv q →
      List.Chain' (· ≤ ·)
        ((liveLoopF ctx ab fuel i q []).map (fun r => r.path.length)) := by
  intro fuel
  induction fuel with
  | zero => intro q i h; simp [liveLoopF]
  | succ fuel ih =>
    intro q i h
    cases q with
    | nil => simp [liveLoopF]
    | cons e rest =>
      obtain ⟨n, p⟩ := e
      cases hab : ab i with
      | true => simp [liveLoopF, hab]
      | false =>
        simp only [liveLoopF, hab, Bool.false_eq_true, if_false]
        have hstep := depthInv_step n p rest h
        have hinv' : DepthInv
            (rest ++ n.children.map (fun c => (c, p ++ [c.name]))) :=
          ⟨p.length, hstep.1, hstep.2⟩
        have hlow : ∀ e ∈ rest ++ n.children.map (fun c => (c, p ++ [c.name])),
            p.length ≤ e.2.length := fun e he => (hstep.2 e he).1
        cases hemit : liveEmit ctx n p with
        | none => exact ih _ _ hinv'
        | some r =>
          rw [liveLoopF_append]
          simp only [List.nil_append, List.map_append, List.map_cons,
            List.map_nil, List.singleton_append]
          have hrp : r.path = p := (liveEmit_fields ctx n p r hemit).1
          rw [List.chain'_cons']
          constructor
          · intro y hy
            cases htail : liveLoopF ctx ab fuel (i + 1)
                (rest ++ n.children.map (fun c => (c, p ++ [c.name]))) [] with
            | nil => rw [htail] at hy; simp at hy
            | cons r0 t =>
              rw [htail] at hy
              simp only [List.map_cons, List.head?_cons, Option.mem_def,
                Option.some.injEq] at hy
              subst hy
              have hr0 : r0 ∈ liveLoopF ctx ab fuel (i + 1)
                  (rest ++ n.children.map (fun c => (c, p ++ [c.name]))) [] := by
                rw [htail]; simp
              have := liveLoopF_depth_lower ctx ab fuel _ (i + 1) p.length
                hlow r0 hr0
              rw [hrp]
              exact this
          · exact ih _ _ hinv'

-- Remote-JSON mode (REST API documents).

/-- Serialized node returned by the Figma REST API, from the `JsonNode`
interface of scan-engine.ts: the fields the engine reads are `id`,
`name`, `type`, `componentId` and `children`.  A missing `children`
field is modelled by the empty list (the engine only iterates). -/
inductive JsonNode where
  | mk (id name type : String) (componentId : Option String)
       (children : List JsonNode)

/-- Projection of the `id` field. -/
def JsonNode.id : JsonNode → String
  | .mk i _ _ _ _ => i

/-- Projection of the `name` field. -/
def JsonNode.name : JsonNode → String
  | .mk _ n _ _ _ => n

/-- Projection of the `type` field. -/
def JsonNode.type : JsonNode → String
  | .mk _ _ t _ _ => t

/-- Projection of the `componentId` field (absent in TS becomes
none). -/
def JsonNode.componentId : JsonNode → Option String
  | .mk _ _ _ c _ => c

/-- Projection of the `children` field. -/
def JsonNode.children : JsonNode → List JsonNode
  | .mk _ _ _ _ cs => cs

mutual

/-- Number of nodes in a JSON subtree (loop fuel). -/
def JsonNode.nodeCount : JsonNode → Nat
  | .mk _ _ _ _ cs => 1 + JsonNode.nodeCountList cs

/-- Total node count of a JSON forest. -/
def JsonNode.nodeCountList : List JsonNode → Nat
  | [] => 0
  | c :: cs => JsonNode.nodeCount c + JsonNode.nodeCountList cs

end

/-- The character class stripped by the JavaScript `String.trim`
(ASCII whitespace; the engine only ever trims identifier strings, which
contain none of the exotic Unicode space characters). -/
def jsWhitespace (c : Char) : Bool :=
  c == ' ' || c == '\t' || c == '\n' || c == '\r' || c == '\x0b' || c == '\x0c'

/-- Embedding of the JavaScript `String.prototype.trim`. -/
def jsTrim (s : String) : String :=
  ⟨((s.data.dropWhile jsWhitespace).reverse.dropWhile jsWhitespace).reverse⟩

/-- Truthiness of an optional string, as used by the guard
`if (!componentId) continue` (undefined and the empty string are
falsy). -/
def jsFalsyStr : Option String → Bool
  | none => true
  | some s => s == ""

/-- The five-strategy match decision of `ScanEngine.traverseJsonNode`
for an instance node with a non-falsy `componentId`.  `master` is
`this.masterComponent`; the two maps are the per-file identity index
(`this.componentKeyToNodeIdMap` and `this.nodeIdToKeyMap`).  JS `Map`
lookups are modelled by first-match association-list lookup (the maps
are built by `Map.set`, embedded below as replace-or-append, so keys
are unique). -/
def jsonMatches (master : MasterComponentInfo)
    (componentKeyToNodeIdMap nodeIdToKeyMap : List (String × String))
    (node : JsonNode) (componentId : String) : Bool :=
  let masterKey := master.key
  let masterId := master.id
  let cidStr := jsTrim componentId
  let matchesByKey := cidStr == jsTrim masterKey
  let matchesById := cidStr == jsTrim masterId
  let matchesByForwardLookup :=
    match componentKeyToNodeIdMap.lookup masterKey with
    | some localNodeIdForMasterKey =>
        localNodeIdForMasterKey != "" &&
          cidStr == jsTrim localNodeIdForMasterKey
    | none => false
  let matchesByComponentLookup :=
    match nodeIdToKeyMap.lookup cidStr with
    | some componentKeyForThisId =>
        componentKeyForThisId != "" &&
          componentKeyForThisId == jsTrim masterKey
    | none => false
  let matchesByName := node.name == master.name
  matchesByKey || matchesById || matchesByForwardLookup ||
    matchesByComponentLookup || matchesByName

/-- Static per-traversal context of `traverseJsonNode`. -/
structure JsonCtx where
  masterComponent : Option MasterComponentInfo
  componentKeyToNodeIdMap : List (String × String)
  nodeIdToKeyMap : List (String × String)
  fileKey : String
  fileName : String
  pageName : String
  pageId : String
  now : Nat

/-- Record constructed by `traverseJsonNode` for a matching instance.
Note the `instanceType` here is only ever `nested` or `direct`. -/
def jsonRecord (ctx : JsonCtx) (n : JsonNode) (p : List String) :
    ComponentUsageRecord :=
  { id := ctx.fileKey ++ "-" ++ n.id ++ "-" ++ toString ctx.now
    fileName := ctx.fileName
    fileKey := ctx.fileKey
    pageName := ctx.pageName
    pageId := ctx.pageId
    nodeName := n.name
    nodeId := n.id
    instanceType := if p.length > 1 then .nested else .direct
    path := p
    variant := none
    timestamp := ctx.now }

/-- Work-list entries of the JSON BFS. -/
abbrev JsonEntry := JsonNode × List String

/-- Fuel needed to drain a JSON work list. -/
def jsonQueueFuel (q : List JsonEntry) : Nat :=
  (q.map (fun e => e.1.nodeCount)).sum

/-- Fuel-indexed embedding of the `while` loop of
`ScanEngine.traverseJsonNode` (scan-engine.ts).  The `continue` on a
falsy `componentId` skips both the match and the child enqueueing, so
the whole subtree of such an instance is dropped.  `ab` is the abort
flag observation schedule, as in the live loop. -/
def jsonLoopF (ctx : JsonCtx) (ab : Nat → Bool) :
    Nat → Nat → List JsonEntry → List ComponentUsageRecord →
    List ComponentUsageRecord
  | 0, _, _, recs => recs
  | _ + 1, _, [], recs => recs
  | fuel + 1, i, (n, p) :: rest, recs =>
    if ab i then recs
    else
      match ctx.masterComponent with
      | some master =>
        if n.type == "INSTANCE" then
          if jsFalsyStr n.componentId then
            jsonLoopF ctx ab fuel (i + 1) rest recs
          else
            let recs' :=
              if jsonMatches master ctx.componentKeyToNodeIdMap
                  ctx.nodeIdToKeyMap n (n.componentId.getD "")
              then recs ++ [jsonRecord ctx n p]
              else recs
            jsonLoopF ctx ab fuel (i + 1)
              (rest ++ n.children.map (fun c => (c, p ++ [c.name]))) recs'
        else
          jsonLoopF ctx ab fuel (i + 1)
            (rest ++ n.children.map (fun c => (c, p ++ [c.name]))) recs
      | none =>
        jsonLoopF ctx ab fuel (i + 1)
          (rest ++ n.children.map (fun c => (c, p ++ [c.name]))) recs

/-- The BFS loop of `traverseJsonNode` with exact fuel. -/
def jsonLoop (ctx : JsonCtx) (ab : Nat → Bool) (i : Nat)
    (q : List JsonEntry) (recs : List ComponentUsageRecord) :
    List ComponentUsageRecord :=
  jsonLoopF ctx ab (jsonQueueFuel q) i q recs

/-- JSON forest node count as a sum over the children. -/
theorem jsonNodeCountList_eq_sum (l : List JsonNode) :
    JsonNode.nodeCountList l = (l.map JsonNode.nodeCount).sum := by
  induction l with
  | nil => simp [JsonNode.nodeCountList]
  | cons x xs ih => simp [JsonNode.nodeCountList, ih]

/-- Every JSON subtree contains at least its root. -/
theorem jsonNodeCount_pos (n : JsonNode) : 1 ≤ n.nodeCount := by
  cases n with
  | mk a b c d cs => simp [JsonNode.nodeCount]

/-- Fuel of a cons JSON work list. -/
theorem jsonQueueFuel_cons (n : JsonNode) (p : List String)
    (rest : List JsonEntry) :
    jsonQueueFuel ((n, p) :: rest) = n.nodeCount + jsonQueueFuel rest := by
  simp [jsonQueueFuel]

/-- One JSON BFS dequeue (with enqueued children) consumes exactly one
unit of fuel. -/
theorem jsonStep_fuel (n : JsonNode) (p : List String)
    (rest : List JsonEntry) :
    jsonQueueFuel (rest ++ n.children.map (fun c => (c, p ++ [c.name]))) + 1 =
      jsonQueueFuel ((n, p) :: rest) := by
  have h1 : jsonQueueFuel (rest ++ n.children.map (fun c => (c, p ++ [c.name]))) =
      jsonQueueFuel rest +
        jsonQueueFuel (n.children.map (fun c => (c, p ++ [c.name]))) := by
    simp [jsonQueueFuel]
  have h2 : jsonQueueFuel (n.children.map (fun c => (c, p ++ [c.name]))) =
      (n.children.map JsonNode.nodeCount).sum := by
    unfold jsonQueueFuel
    rw [List.map_map]
    rfl
  rw [h1, h2, jsonQueueFuel_cons]
  cases n with
  | mk a b c d cs =>
    simp only [JsonNode.children, JsonNode.nodeCount,
      jsonNodeCountList_eq_sum]
    omega

/-- The JSON loop ignores its fuel on an empty work list. -/
theorem jsonLoopF_nil (ctx : JsonCtx) (ab : Nat → Bool) (fuel i : Nat)
    (recs : List ComponentUsageRecord) :
    jsonLoopF ctx ab fuel i [] recs = recs := by
  cases fuel <;> rfl

/-- Any two sufficient fuels drive the JSON loop to the same result. -/
theorem jsonLoopF_fuel_mono (ctx : JsonCtx) (ab : Nat → Bool) :
    ∀ (fuel fuel' : Nat) (q : List JsonEntry) (i : Nat)
      (recs : List ComponentUsageRecord),
      jsonQueueFuel q ≤ fuel → jsonQueueFuel q ≤ fuel' →
      jsonLoopF ctx ab fuel i q recs = jsonLoopF ctx ab fuel' i q recs := by
  intro fuel
  induction fuel with
  | zero =>
    intro fuel' q i recs h h'
    have hq : q = [] := by
      cases q with
      | nil => rfl
      | cons e rest =>
        exfalso
        obtain ⟨n, p⟩ := e
        have := jsonQueueFuel_cons n p rest
        have := jsonNodeCount_pos n
        omega
    subst hq
    rw [jsonLoopF_nil, jsonLoopF_nil]
  | succ fuel ih =>
    intro fuel' q i recs h h'
    cases q with
    | nil => rw [jsonLoopF_nil, jsonLoopF_nil]
    | cons e rest =>
      obtain ⟨n, p⟩ := e
      have hstep := jsonStep_fuel n p rest
      have hpos := jsonNodeCount_pos n
      have hc := jsonQueueFuel_cons n p rest
      cases fuel' with
      | zero => omega
      | succ fuel' =>
        cases hab : ab i with
        | true => simp only [jsonLoopF, hab, if_true]
        | false =>
          simp only [jsonLoopF, hab, Bool.false_eq_true, if_false]
          cases hm : ctx.masterComponent with
          | none => exact ih fuel' _ _ _ (by omega) (by omega)
          | some master =>
            by_cases hinst : (n.type == "INSTANCE") = true
            · simp only [hinst, if_true]
              by_cases hfal : jsFalsyStr n.componentId = true
              · simp only [hfal, if_true]
                exact ih fuel' _ _ _ (by omega) (by omega)
              · simp only [hfal, Bool.false_eq_true, if_false]
                exact ih fuel' _ _ _ (by omega) (by omega)
            · simp only [hinst, Bool.false_eq_true, if_false]
              exact ih fuel' _ _ _ (by omega) (by omega)

/-- With sufficient fuel the JSON loop equals its exact-fuel wrapper. -/
theorem jsonLoopF_fuel_irrelevant (ctx : JsonCtx) (ab : Nat → Bool)
    (fuel : Nat) (q : List JsonEntry) (i : Nat)
    (recs : List ComponentUsageRecord) (h : jsonQueueFuel q ≤ fuel) :
    jsonLoopF ctx ab fuel i q recs = jsonLoop ctx ab i q recs :=
  jsonLoopF_fuel_mono ctx ab fuel (jsonQueueFuel q) q i recs h (le_refl _)

/-- Records appended by the JSON loop are classified solely by
breadcrumb depth: only `nested` (depth above one) or `direct` are ever
produced, never `remote`. -/
theorem jsonLoopF_instanceType (ctx : JsonCtx) (ab : Nat → Bool) :
    ∀ (fuel : Nat) (q : List JsonEntry) (i : Nat)
      (recs : List ComponentUsageRecord),
      ∀ r ∈ jsonLoopF ctx ab fuel i q recs,
        r ∈ recs ∨
          r.instanceType = (if r.path.length > 1 then .nested else .direct) := by
  intro fuel
  induction fuel with
  | zero => intro q i recs r hr; exact Or.inl hr
  | succ fuel ih =>
    intro q i recs r hr
    cases q with
    | nil => exact Or.inl (by rwa [jsonLoopF_nil] at hr)
    | cons e rest =>
      obtain ⟨n, p⟩ := e
      cases hab : ab i with
      | true =>
        simp only [jsonLoopF, hab, if_true] at hr
        exact Or.inl hr
      | false =>
        simp only [jsonLoopF, hab, Bool.false_eq_true, if_false] at hr
        cases hm : ctx.masterComponent with
        | none => rw [hm] at hr; dsimp only at hr; exact ih _ _ _ r hr
        | some master =>
          rw [hm] at hr
          dsimp only at hr
          by_cases hinst : (n.type == "INSTANCE") = true
          · rw [if_pos hinst] at hr
            by_cases hfal : jsFalsyStr n.componentId = true
            · rw [if_pos hfal] at hr
              exact ih _ _ _ r hr
            · rw [if_neg hfal] at hr
              by_cases hmat : jsonMatches master ctx.componentKeyToNodeIdMap
                  ctx.nodeIdToKeyMap n (n.componentId.getD "") = true
              · rw [if_pos hmat] at hr
                rcases ih _ _ _ r hr with hin | hprop
                · rcases List.mem_append.mp hin with h1 | h2
                  · exact Or.inl h1
                  · obtain rfl : jsonRecord ctx n p = r :=
                      (List.mem_singleton.mp h2).symm
                    exact Or.inr (by simp [jsonRecord])
                · exact Or.inr hprop
              · rw [if_neg hmat] at hr
                exact ih _ _ _ r hr
          · rw [if_neg hinst] at hr
            exact ih _ _ _ r hr

/-- With the never-firing abort schedule the observation counter is
irrelevant. -/
theorem jsonLoopF_counter_false (ctx : JsonCtx) :
    ∀ (fuel : Nat) (q : List JsonEntry) (i j : Nat)
      (recs : List ComponentUsageRecord),
      jsonLoopF ctx (fun _ => false) fuel i q recs =
        jsonLoopF ctx (fun _ => false) fuel j q recs := by
  intro fuel
  induction fuel with
  | zero => intro q i j recs; rfl
  | succ fuel ih =>
    intro q i j recs
    cases q with
    | nil => rw [jsonLoopF_nil, jsonLoopF_nil]
    | cons e rest =>
      obtain ⟨n, p⟩ := e
      simp only [jsonLoopF, Bool.false_eq_true, if_false]
      cases hm : ctx.masterComponent with
      | none => exact ih _ _ _ _
      | some master =>
        by_cases hinst : (n.type == "INSTANCE") = true
        · simp only [hinst, if_true]
          by_cases hfal : jsFalsyStr n.componentId = true
          · simp only [hfal, if_true]
            exact ih _ _ _ _
          · simp only [hfal, Bool.false_eq_true, if_false]
            exact ih _ _ _ _
        · simp only [hinst, Bool.false_eq_true, if_false]
          exact ih _ _ _ _

/-- The JSON loop wrapper on an empty work list. -/
theorem jsonLoop_nil (ctx : JsonCtx) (ab : Nat → Bool) (i : Nat)
    (recs : List ComponentUsageRecord) :
    jsonLoop ctx ab i [] recs = recs := by
  simp [jsonLoop, jsonQueueFuel, jsonLoopF_nil]

-- Per-file scanning pipeline (remote mode).

/-- JS `Map.prototype.set` on an association list: replace the first
binding of the key, or append a fresh one. -/
def mapSet : List (String × String) → String → String → List (String × String)
  | [], k, v => [(k, v)]
  | (k0, v0) :: rest, k, v =>
    if k0 == k then (k, v) :: rest else (k0, v0) :: mapSet rest k v

/-- The `document` object of a REST file response, as read by
`scanFileJsonInternal`: an optional name and the page list
(`document.children`). -/
structure JsonDocument where
  name : Option String
  children : List JsonNode

/-- A parsed REST file response, as read by `scanFileJsonInternal`: the
optional file name, the optional document, and the component manifest
`fileJson.components`.  Each manifest entry carries its key and the
effective local node id `data.node_id || data.nodeId` (none or the
empty string when both fields are falsy). -/
structure FileJson where
  name : Option String
  document : Option JsonDocument
  components : List (String × Option String)

/-- JS string `||` fallback: the empty string falls through. -/
def jsOrStr (a : Option String) (b : String) : String :=
  match a with
  | some s => if s == "" then b else s
  | none => b

/-- Identity-index construction of `scanFileJsonInternal`: both maps
are cleared and rebuilt from the component manifest; entries with a
falsy node id are skipped. -/
def buildIdentityMaps (components : List (String × Option String)) :
    List (String × String) × List (String × String) :=
  components.foldl
    (fun maps kv =>
      match kv.2 with
      | some nodeId =>
        if nodeId == "" then maps
        else (mapSet maps.1 kv.1 nodeId, mapSet maps.2 nodeId kv.1)
      | none => maps)
    ([], [])

/-- Embedding of `ScanEngine.scanFileJsonInternal` (scan-engine.ts,
current revision): compute the file name with JS fallbacks, rebuild the
per-file identity index, then traverse each child of each page.  The
uncancelled run is modelled (the abort schedule never fires); the
internal catch of this revision only logs, so no error escapes. -/
def scanFileJsonInternal (masterComponent : Option MasterComponentInfo)
    (fileJson : FileJson) (fileKey : String) (now : Nat)
    (recs : List ComponentUsageRecord) : List ComponentUsageRecord :=
  let fileName :=
    jsOrStr fileJson.name
      (jsOrStr (fileJson.document.bind (fun d => d.name)) "Untitled")
  let pages := match fileJson.document with
    | some d => d.children
    | none => []
  let maps := buildIdentityMaps fileJson.components
  pages.foldl
    (fun acc page =>
      page.children.foldl
        (fun acc2 child =>
          jsonLoop
            { masterComponent := masterComponent
              componentKeyToNodeIdMap := maps.1
              nodeIdToKeyMap := maps.2
              fileKey := fileKey
              fileName := fileName
              pageName := page.name
              pageId := page.id
              now := now }
            (fun _ => false) 0 [(child, [child.name])] acc2)
        acc)
    recs

-- Whole-project scanning (current revision of scanExternalFiles:
-- sequential per-file processing, every per-file error handled inside
-- the loop body).

/-- Abstract outcome of fetching one file: the promise rejects
(network error, CORS, timeout), or an HTTP error status arrives, or
reading the body text fails, or a body of a given byte length arrives
together with its JSON parse result (`none` models a parse failure or
a non-object result). -/
inductive FetchOutcome where
  | netError (msg : String)
  | httpError (status : Nat)
  | textError (msg : String)
  | bodyOf (len : Nat) (parsed : Option FileJson)

/-- Aggregated state of a whole-project scan: collected records, the
skipped-file counter, the successful-file counter, and the keys of the
skipped files in log order (the console warnings). -/
structure ExtScanState where
  records : List ComponentUsageRecord
  skippedFiles : Nat
  successfulFiles : Nat
  skipLog : List String
deriving DecidableEq, Repr

/-- One loop body of `scanExternalFiles`: every failure branch yields
`none` (skip); a well-formed body is scanned.  The branches mirror the
source checks in order: `!res.ok`, text read failure, empty body, the
100000000-character size cap, JSON parse failure, and the missing
`document` field validation. -/
def processExternalFile (master : MasterComponentInfo) (now : Nat)
    (fileKey : String) (outcome : FetchOutcome) :
    Option (List ComponentUsageRecord) :=
  match outcome with
  | .netError _ => none
  | .httpError _ => none
  | .textError _ => none
  | .bodyOf len parsed =>
    if len == 0 then none
    else if 100000000 < len then none
    else
      match parsed with
      | none => none
      | some fileJson =>
        match fileJson.document with
        | none => none
        | some _ =>
          some (scanFileJsonInternal (some master) fileJson fileKey now [])

/-- The per-file loop of `scanExternalFiles`: files are processed in
list order; a failing file is logged and counted as skipped and the
loop moves on. -/
def scanExternalFilesLoop (master : MasterComponentInfo) (now : Nat) :
    List (String × FetchOutcome) → ExtScanState
  | [] => { records := [], skippedFiles := 0, successfulFiles := 0, skipLog := [] }
  | (fileKey, outcome) :: rest =>
    let st := scanExternalFilesLoop master now rest
    match processExternalFile master now fileKey outcome with
    | none =>
      { records := st.records
        skippedFiles := st.skippedFiles + 1
        successfulFiles := st.successfulFiles
        skipLog := fileKey :: st.skipLog }
    | some newRecs =>
      { records := newRecs ++ st.records
        skippedFiles := st.skippedFiles
        successfulFiles := st.successfulFiles + 1
        skipLog := st.skipLog }

/-- Embedding of `ScanEngine.scanExternalFiles` (current revision): the
only error that escapes is the missing-token configuration error thrown
before the loop starts; otherwise the loop runs to completion. -/
def scanExternalFiles (master : MasterComponentInfo)
    (accessToken : Option String) (files : List (String × FetchOutcome))
    (now : Nat) : Except String ExtScanState :=
  match accessToken with
  | none => .error "External file scanning requires API token. Please configure it in plugin settings."
  | some _ => .ok (scanExternalFilesLoop master now files)

/-- The per-file failure conditions enumerated by the source: fetch
rejection, HTTP error status, body read failure, empty body, oversized
body, JSON parse failure, missing `document`. -/
def isPerFileFailure : FetchOutcome → Bool
  | .netError _ => true
  | .httpError _ => true
  | .textError _ => true
  | .bodyOf len parsed =>
    len == 0 || decide (100000000 < len) ||
      (match parsed with
        | none => true
        | some fileJson => fileJson.document.isNone)

/-- A per-file failure always takes a skip branch. -/
theorem processExternalFile_of_failure (master : MasterComponentInfo)
    (now : Nat) (fileKey : String) (outcome : FetchOutcome)
    (h : isPerFileFailure outcome = true) :
    processExternalFile master now fileKey outcome = none := by
  cases outcome with
  | netError m => rfl
  | httpError s => rfl
  | textError m => rfl
  | bodyOf len parsed =>
    simp only [isPerFileFailure, Bool.or_eq_true] at h
    simp only [processExternalFile]
    by_cases hz : (len == 0) = true
    · rw [if_pos hz]
    · rw [if_neg hz]
      by_cases hl : 100000000 < len
      · rw [if_pos hl]
      · rw [if_neg hl]
        cases parsed with
        | none => rfl
        | some fileJson =>
          rcases h with (h1 | h2) | h3
          · exact absurd h1 hz
          · exact absurd (of_decide_eq_true h2) hl
          · dsimp only at h3
            cases hd : fileJson.document with
            | none => dsimp only; rw [hd]
            | some d => rw [hd] at h3; simp [Option.isNone] at h3

-- Plugin controller (code.ts): the shared abort flag and cancellation.

/-- The scan-engine state visible to the controller: the shared abort
flag and the accumulated records (scan-engine.ts fields
`this.aborted` and `this.records`). -/
structure EngineState where
  aborted : Bool
  records : List ComponentUsageRecord
deriving DecidableEq, Repr

/-- Embedding of `ScanEngine.abort`: set the flag, touch nothing
else. -/
def ScanEngine.abort (e : EngineState) : EngineState :=
  { e with aborted := true }

/-- Controller state of code.ts relevant to cancellation: the
`currentScan` global, which is null whenever no scan is in flight (it
is reset to null when a scan completes or fails). -/
structure ControllerState where
  currentScan : Option EngineState
deriving DecidableEq, Repr

/-- Embedding of `handleCancelScan` (code.ts): if a scan is in flight,
abort it, null the global and emit the cancellation progress message;
otherwise do nothing.  The returned triple is the new controller state,
the engine state after the call (if any engine was touched) and the
message sent to the UI (if any). -/
def handleCancelScan (c : ControllerState) :
    ControllerState × Option EngineState × Option String :=
  match c.currentScan with
  | some e =>
    ({ currentScan := none }, some (ScanEngine.abort e),
      some "Scan cancelled by user")
  | none => (c, none, none)

-- Result store (db.ts).

/-- The `MAX_STORED_SCANS` constant of db.ts. -/
def MAX_STORED_SCANS : Nat := 50

/-- The stored plugin settings, from types.ts `PluginStorage`
(`settings` field). -/
structure StorageSettings where
  autoSaveScans : Bool
  maxStoredScans : Nat
deriving DecidableEq, Repr

/-- The persisted store, from types.ts `PluginStorage`.  The JS object
`scans` is modelled by a key-unique association list in insertion
order (JS objects preserve string-key insertion order, which is what
`Object.keys` returns). -/
structure PluginStorage where
  scans : List (String × ScanResult)
  lastScanId : Option String
  settings : StorageSettings
deriving DecidableEq, Repr

/-- Embedding of `PluginDB.getDefaultStorage` (db.ts). -/
def getDefaultStorage : PluginStorage :=
  { scans := [], lastScanId := none,
    settings := { autoSaveScans := true, maxStoredScans := MAX_STORED_SCANS } }

/-- JS object property write `scans[key] = value`: overwrite the
existing binding in place, or append a fresh one. -/
def scansSet : List (String × ScanResult) → String → ScanResult →
    List (String × ScanResult)
  | [], k, v => [(k, v)]
  | (k0, v0) :: rest, k, v =>
    if k0 == k then (k, v) :: rest else (k0, v0) :: scansSet rest k v

/-- JS `delete scans[key]`: drop the (unique) binding of the key. -/
def scansDelete : List (String × ScanResult) → String →
    List (String × ScanResult)
  | [], _ => []
  | (k0, v0) :: rest, k =>
    if k0 == k then rest else (k0, v0) :: scansDelete rest k

/-- Insertion step of the eviction sort. -/
def insertByTs (x : String × Nat) :
    List (String × Nat) → List (String × Nat)
  | [] => [x]
  | y :: rest => if x.2 ≤ y.2 then x :: y :: rest else y :: insertByTs x rest

/-- The `sort((a, b) => a.timestamp - b.timestamp)` of
`PluginDB.setRecord`, embedded as an insertion sort (ascending by
timestamp; under the distinct-timestamp hypotheses used below any
comparison sort computes this same list). -/
def sortByTs (l : List (String × Nat)) : List (String × Nat) :=
  l.foldr insertByTs []

/-- Embedding of `PluginDB.setRecord` (db.ts): write the record under
its session id, update the most-recent pointer, and if the store now
exceeds `settings.maxStoredScans`, delete the oldest entries by
timestamp.  The source maps each id through `storage.scans[id]` to pair
it with its timestamp; with unique keys this is the direct pairing
used here. -/
def setRecord (storage : PluginStorage) (result : ScanResult) :
    PluginStorage :=
  let scans1 := scansSet storage.scans result.sessionId result
  let storage1 :=
    { storage with scans := scans1, lastScanId := some result.sessionId }
  let scanIds := scans1.map (fun e => e.1)
  if storage.settings.maxStoredScans < scanIds.length then
    let sorted := sortByTs (scans1.map (fun e => (e.1, e.2.timestamp)))
    let toRemove :=
      sorted.take (scanIds.length - storage.settings.maxStoredScans)
    { storage1 with
      scans := toRemove.foldl (fun m item => scansDelete m item.1) scans1 }
  else storage1

-- Lemmas about the store.

/-- Inserting by timestamp permutes. -/
theorem insertByTs_perm (x : String × Nat) (l : List (String × Nat)) :
    (insertByTs x l).Perm (x :: l) := by
  induction l with
  | nil => exact List.Perm.refl _
  | cons y rest ih =>
    by_cases h : x.2 ≤ y.2
    · simp [insertByTs, h]
    · simp only [insertByTs, h, if_false]
      exact List.Perm.trans (List.Perm.cons y ih) (List.Perm.swap x y rest)

/-- The eviction sort permutes its input. -/
theorem sortByTs_perm (l : List (String × Nat)) :
    (sortByTs l).Perm l := by
  induction l with
  | nil => exact List.Perm.refl _
  | cons x rest ih =>
    exact List.Perm.trans (insertByTs_perm x (sortByTs rest))
      (List.Perm.cons x ih)

/-- Inserting by timestamp preserves sortedness. -/
theorem insertByTs_sorted (x : String × Nat) (l : List (String × Nat))
    (h : l.Pairwise (fun a b => a.2 ≤ b.2)) :
    (insertByTs x l).Pairwise (fun a b => a.2 ≤ b.2) := by
  induction l with
  | nil => simp [insertByTs]
  | cons y rest ih =>
    rw [List.pairwise_cons] at h
    by_cases hxy : x.2 ≤ y.2
    · simp only [insertByTs, hxy, if_true]
      rw [List.pairwise_cons]
      constructor
      · intro b hb
        rcases List.mem_cons.mp hb with rfl | hb2
        · exact hxy
        · exact le_trans hxy (h.1 b hb2)
      · rw [List.pairwise_cons]
        exact h
    · simp only [insertByTs, hxy, if_false]
      rw [List.pairwise_cons]
      constructor
      · intro b hb
        have hmem := (insertByTs_perm x rest).mem_iff.mp hb
        rcases List.mem_cons.mp hmem with rfl | hb2
        · omega
        · exact h.1 b hb2
      · exact ih h.2

/-- The eviction sort is ascending by timestamp. -/
theorem sortByTs_sorted (l : List (String × Nat)) :
    (sortByTs l).Pairwise (fun a b => a.2 ≤ b.2) := by
  induction l with
  | nil => simp [sortByTs]
  | cons x rest ih => exact insertByTs_sorted x _ ih

/-- Writing an existing key leaves the key sequence unchanged. -/
theorem scansSet_keys_of_mem (m : List (String × ScanResult)) (k : String)
    (v : ScanResult) (h : k ∈ m.map (fun e => e.1)) :
    (scansSet m k v).map (fun e => e.1) = m.map (fun e => e.1) := by
  induction m with
  | nil => simp at h
  | cons e rest ih =>
    obtain ⟨k0, v0⟩ := e
    by_cases hk : (k0 == k) = true
    · have : k0 = k := by simpa using hk
      subst this
      simp [scansSet]
    · have hkk : ¬ k0 = k := by simpa using hk
      simp only [List.map_cons, List.mem_cons] at h
      rcases h with h1 | h2
      · exact absurd h1.symm hkk
      · simp only [scansSet, hk, Bool.false_eq_true, if_false, List.map_cons]
        rw [ih h2]

/-- Writing a fresh key appends its binding. -/
theorem scansSet_of_not_mem (m : List (String × ScanResult)) (k : String)
    (v : ScanResult) (h : ¬ k ∈ m.map (fun e => e.1)) :
    scansSet m k v = m ++ [(k, v)] := by
  induction m with
  | nil => rfl
  | cons e rest ih =>
    obtain ⟨k0, v0⟩ := e
    simp only [List.map_cons, List.mem_cons] at h
    push_neg at h
    have hk : ¬ (k0 == k) = true := by
      simp only [beq_iff_eq]
      exact fun hc => h.1 hc.symm
    simp only [scansSet, hk, Bool.false_eq_true, if_false, List.cons_append]
    rw [ih h.2]

/-- Looking up the written key yields the written value (keys
unique). -/
theorem scansSet_lookup (m : List (String × ScanResult)) (k : String)
    (v : ScanResult) : (scansSet m k v).lookup k = some v := by
  induction m with
  | nil => simp [scansSet, List.lookup]
  | cons e rest ih =>
    obtain ⟨k0, v0⟩ := e
    by_cases hk : (k0 == k) = true
    · simp [scansSet, hk, List.lookup]
    · simp only [scansSet, hk, Bool.false_eq_true, if_false]
      have hne : (k == k0) = false := by
        rw [beq_eq_false_iff_ne]
        intro hc
        exact (by simpa using hk : ¬ k0 = k) hc.symm
      simp [List.lookup, hne, ih]

/-- Deleting a present key under unique keys: one entry disappears,
the remaining entries and their order are untouched. -/
theorem scansDelete_of_mem (m : List (String × ScanResult)) (k : String)
    (hnod : (m.map (fun e => e.1)).Nodup)
    (hk : k ∈ m.map (fun e => e.1)) :
    (scansDelete m k).length + 1 = m.length ∧
    (scansDelete m k).map (fun e => e.1) = (m.map (fun e => e.1)).erase k := by
  induction m with
  | nil => simp at hk
  | cons e rest ih =>
    obtain ⟨k0, v0⟩ := e
    simp only [List.map_cons, List.nodup_cons] at hnod
    by_cases hke : (k0 == k) = true
    · have : k0 = k := by simpa using hke
      subst this
      constructor
      · simp [scansDelete]
      · simp [scansDelete, List.erase_cons]
    · have hne : ¬ k0 = k := by simpa using hke
      simp only [List.map_cons, List.mem_cons] at hk
      rcases hk with h1 | h2
      · exact absurd h1.symm hne
      · have ihr := ih hnod.2 h2
        constructor
        · simp only [scansDelete, hke, Bool.false_eq_true, if_false,
            List.length_cons]
          omega
        · simp only [scansDelete, hke, Bool.false_eq_true, if_false,
            List.map_cons]
          rw [List.erase_cons_tail]
          · rw [ihr.2]
          · simpa using hne

/-- Deleting an absent key is the identity. -/
theorem scansDelete_of_not_mem (m : List (String × ScanResult)) (k : String)
    (h : ¬ k ∈ m.map (fun e => e.1)) : scansDelete m k = m := by
  induction m with
  | nil => rfl
  | cons e rest ih =>
    obtain ⟨k0, v0⟩ := e
    simp only [List.map_cons, List.mem_cons] at h
    push_neg at h
    have hk : ¬ (k0 == k) = true := by
      simp only [beq_iff_eq]
      exact fun hc => h.1 hc.symm
    simp only [scansDelete, hk, Bool.false_eq_true, if_false]
    rw [ih h.2]

/-- Property writes preserve key uniqueness. -/
theorem scansSet_keys_nodup (m : List (String × ScanResult)) (k : String)
    (v : ScanResult) (h : (m.map (fun e => e.1)).Nodup) :
    ((scansSet m k v).map (fun e => e.1)).Nodup := by
  by_cases hk : k ∈ m.map (fun e => e.1)
  · rw [scansSet_keys_of_mem m k v hk]; exact h
  · rw [scansSet_of_not_mem m k v hk]
    simp only [List.map_append, List.map_cons, List.map_nil]
    rw [List.nodup_append]
    exact ⟨h, List.nodup_singleton k, by simpa using hk⟩

/-- Deletions preserve key uniqueness. -/
theorem scansDelete_keys_nodup (m : List (String × ScanResult)) (k : String)
    (h : (m.map (fun e => e.1)).Nodup) :
    ((scansDelete m k).map (fun e => e.1)).Nodup := by
  by_cases hk : k ∈ m.map (fun e => e.1)
  · rw [(scansDelete_of_mem m k h hk).2]
    exact h.erase k
  · rw [scansDelete_of_not_mem m k hk]; exact h

/-- Folding deletions of pairwise distinct, present keys removes
exactly one entry per key. -/
theorem foldl_scansDelete_length :
    ∀ (its : List (String × Nat)) (m : List (String × ScanResult)),
      (m.map (fun e => e.1)).Nodup →
      (its.map (fun it => it.1)).Nodup →
      (∀ it ∈ its, it.1 ∈ m.map (fun e => e.1)) →
      (its.foldl (fun acc it => scansDelete acc it.1) m).length + its.length =
        m.length := by
  intro its
  induction its with
  | nil => intro m hm hits hmem; simp
  | cons it rest ih =>
    intro m hm hits hmem
    simp only [List.map_cons, List.nodup_cons] at hits
    have hit : it.1 ∈ m.map (fun e => e.1) := hmem it (by simp)
    have hdel := scansDelete_of_mem m it.1 hm hit
    have hm2 : ((scansDelete m it.1).map (fun e => e.1)).Nodup :=
      scansDelete_keys_nodup m it.1 hm
    have hmem2 : ∀ it2 ∈ rest, it2.1 ∈ (scansDelete m it.1).map (fun e => e.1) := by
      intro it2 h2
      rw [hdel.2]
      rw [hm.mem_erase_iff]
      constructor
      · intro hc
        exact hits.1 (hc ▸ List.mem_map_of_mem (fun it => it.1) h2)
      · exact hmem it2 (List.mem_cons_of_mem _ h2)
    have := ih (scansDelete m it.1) hm2 hits.2 hmem2
    simp only [List.foldl_cons, List.length_cons]
    omega

/-- Pure bookkeeping fact: `setRecord` never leaves more than
`maxStoredScans` sessions in the store (under the key-uniqueness
invariant of a JS object). -/
theorem setRecord_length_le (st : PluginStorage) (r : ScanResult)
    (hnod : (st.scans.map (fun e => e.1)).Nodup) :
    (setRecord st r).scans.length ≤ st.settings.maxStoredScans := by
  simp only [setRecord]
  set scans1 := scansSet st.scans r.sessionId r with hscans1
  have hnod1 : (scans1.map (fun e => e.1)).Nodup :=
    scansSet_keys_nodup st.scans r.sessionId r hnod
  by_cases hcond : st.settings.maxStoredScans < (scans1.map (fun e => e.1)).length
  · rw [if_pos hcond]
    dsimp only
    set pairs := scans1.map (fun e => (e.1, e.2.timestamp)) with hpairs
    set sorted := sortByTs pairs with hsorted
    set toRemove := sorted.take
      ((scans1.map (fun e => e.1)).length - st.settings.maxStoredScans)
      with htoRemove
    have hperm : sorted.Perm pairs := sortByTs_perm pairs
    have hkeys : pairs.map (fun it => it.1) = scans1.map (fun e => e.1) := by
      rw [hpairs, List.map_map]
      rfl
    have hsortednod : (sorted.map (fun it => it.1)).Nodup := by
      refine (List.Perm.nodup_iff (List.Perm.map _ hperm)).mpr ?_
      rw [hkeys]
      exact hnod1
    have htrnod : (toRemove.map (fun it => it.1)).Nodup := by
      refine List.Nodup.sublist ?_ hsortednod
      exact List.Sublist.map _ (List.take_sublist _ _)
    have htrmem : ∀ it ∈ toRemove, it.1 ∈ scans1.map (fun e => e.1) := by
      intro it hit
      have h1 : it ∈ sorted := (List.take_sublist _ _).mem hit
      have h2 : it ∈ pairs := hperm.mem_iff.mp h1
      have h3 : it.1 ∈ pairs.map (fun it => it.1) :=
        List.mem_map_of_mem (fun it => it.1) h2
      rwa [hkeys] at h3
    have hfold := foldl_scansDelete_length toRemove scans1 hnod1 htrnod htrmem
    have hlen : toRemove.length =
        (scans1.map (fun e => e.1)).length - st.settings.maxStoredScans := by
      rw [htoRemove, List.length_take]
      have hs : sorted.length = pairs.length := hperm.length_eq
      have hp : pairs.length = scans1.length := by rw [hpairs]; simp
      simp only [List.length_map] at hcond ⊢
      omega
    simp only [List.length_map] at hcond hlen
    omega
  · rw [if_neg hcond]
    dsimp only
    simp only [List.length_map] at hcond
    omega

/-- Eviction exactness: when the write brings the store to exactly one
session over capacity and timestamps are pairwise distinct, the entry
removed is the unique one with the smallest timestamp. -/
theorem setRecord_evicts_min (st : PluginStorage) (r : ScanResult)
    (hts : ((scansSet st.scans r.sessionId r).map
      (fun e => e.2.timestamp)).Nodup)
    (hlen : (scansSet st.scans r.sessionId r).length =
      st.settings.maxStoredScans + 1) :
    ∃ en ∈ scansSet st.scans r.sessionId r,
      (∀ f ∈ scansSet st.scans r.sessionId r,
        ¬ f.1 = en.1 → en.2.timestamp < f.2.timestamp) ∧
      (setRecord st r).scans =
        scansDelete (scansSet st.scans r.sessionId r) en.1 := by
  simp only [setRecord]
  set scans1 := scansSet st.scans r.sessionId r with hscans1
  have hcond : st.settings.maxStoredScans <
      (scans1.map (fun e => e.1)).length := by
    simp only [List.length_map]
    omega
  rw [if_pos hcond]
  dsimp only
  set pairs := scans1.map (fun e => (e.1, e.2.timestamp)) with hpairs
  have hperm : (sortByTs pairs).Perm pairs := sortByTs_perm pairs
  have hplen : pairs.length = st.settings.maxStoredScans + 1 := by
    rw [hpairs]; simpa using hlen
  have hslen : (sortByTs pairs).length = st.settings.maxStoredScans + 1 := by
    rw [hperm.length_eq, hplen]
  have htake : (scans1.map (fun e => e.1)).length -
      st.settings.maxStoredScans = 1 := by
    simp only [List.length_map]
    omega
  cases hss : sortByTs pairs with
  | nil => rw [hss] at hslen; simp at hslen
  | cons hd tail =>
    have hhd : hd ∈ pairs := hperm.mem_iff.mp (by rw [hss]; simp)
    obtain ⟨en, hen, henh⟩ := List.mem_map.mp hhd
    refine ⟨en, hen, ?_, ?_⟩
    · intro f hf hne
      have hpf : (f.1, f.2.timestamp) ∈ pairs :=
        List.mem_map_of_mem (fun e => (e.1, e.2.timestamp)) hf
      have hpfs : (f.1, f.2.timestamp) ∈ sortByTs pairs :=
        hperm.mem_iff.mpr hpf
      rw [hss] at hpfs
      rcases List.mem_cons.mp hpfs with heq | htl
      · exfalso
        apply hne
        have : f.1 = hd.1 := by rw [← heq]
        rw [this, ← henh]
      · have hsorted := sortByTs_sorted pairs
        rw [hss, List.pairwise_cons] at hsorted
        have hle : hd.2 ≤ f.2.timestamp := hsorted.1 _ htl
        have hinj := List.inj_on_of_nodup_map hts
        have hne2 : ¬ en.2.timestamp = f.2.timestamp := by
          intro hc
          have : en = f := hinj hen hf hc
          exact hne (by rw [this])
        have : hd.2 = en.2.timestamp := by rw [← henh]
        omega
    · rw [htake]
      simp only [List.take_succ_cons, List.take_zero, List.foldl_cons,
        List.foldl_nil]
      have : hd.1 = en.1 := by rw [← henh]
      rw [this]

/-- Re-saving an existing session id overwrites in place: the key set,
its order and the store size are unchanged, and no eviction runs while
the store is within capacity. -/
theorem setRecord_overwrite (st : PluginStorage) (r : ScanResult)
    (hmem : r.sessionId ∈ st.scans.map (fun e => e.1))
    (hlen : st.scans.length ≤ st.settings.maxStoredScans) :
    (setRecord st r).scans.map (fun e => e.1) =
      st.scans.map (fun e => e.1) ∧
    (setRecord st r).scans.lookup r.sessionId = some r ∧
    (setRecord st r).scans.length = st.scans.length := by
  simp only [setRecord]
  have hkeys := scansSet_keys_of_mem st.scans r.sessionId r hmem
  have hlen1 : (scansSet st.scans r.sessionId r).length = st.scans.length := by
    have h1 : ((scansSet st.scans r.sessionId r).map (fun e => e.1)).length =
        (st.scans.map (fun e => e.1)).length := by rw [hkeys]
    simpa using h1
  have hcond : ¬ st.settings.maxStoredScans <
      ((scansSet st.scans r.sessionId r).map (fun e => e.1)).length := by
    simp only [List.length_map]
    omega
  rw [if_neg hcond]
  exact ⟨hkeys, scansSet_lookup st.scans r.sessionId r, hlen1⟩

-- Export transform (exporter.ts).

/-- The serialized `instanceType` strings. -/
def InstanceType.toStr : InstanceType → String
  | .direct => "direct"
  | .nested => "nested"
  | .remote => "remote"

/-- Embedding of `Exporter.toCSV` (exporter.ts): a fixed header row,
one row per record, every cell wrapped in double quotes, cells joined
by commas and lines by newlines.  `record.variant || ""` is the JS
string fallback. -/
def toCSV (result : ScanResult) : String :=
  let headers := ["File Name", "File Key", "Page Name", "Node Name",
    "Node ID", "Instance Type", "Variant", "Path"]
  let rows := result.records.map (fun record =>
    [record.fileName, record.fileKey, record.pageName, record.nodeName,
     record.nodeId, record.instanceType.toStr, jsOrStr record.variant "",
     String.intercalate " > " record.path])
  let csvLines :=
    String.intercalate "," headers ::
      rows.map (fun row =>
        String.intercalate "," (row.map (fun cell => "\"" ++ cell ++ "\"")))
  String.intercalate "\n" csvLines

/-- JSON value tree, used to embed `JSON.stringify(result, null, 2)`. -/
inductive JsonValue where
  | str (s : String)
  | num (n : Nat)
  | bool (b : Bool)
  | null
  | arr (items : List JsonValue)
  | obj (fields : List (String × JsonValue))

/-- Lower-case hexadecimal digit. -/
def hexDigit (n : Nat) : Char :=
  if n < 10 then Char.ofNat (48 + n) else Char.ofNat (87 + n)

/-- Four-digit hexadecimal rendering, for JSON control-character
escapes. -/
def hex4 (n : Nat) : String :=
  ⟨[hexDigit ((n / 4096) % 16), hexDigit ((n / 256) % 16),
    hexDigit ((n / 16) % 16), hexDigit (n % 16)]⟩

/-- The JSON string escape of one character, as produced by
`JSON.stringify`. -/
def jsonEscapeChar (c : Char) : String :=
  if c = '"' then "\\\""
  else if c = '\\' then "\\\\"
  else if c = '\x08' then "\\b"
  else if c = '\x09' then "\\t"
  else if c = '\x0a' then "\\n"
  else if c = '\x0c' then "\\f"
  else if c = '\x0d' then "\\r"
  else if c.toNat < 32 then "\\u" ++ hex4 c.toNat
  else String.singleton c

/-- A JSON string literal. -/
def jsonQuote (s : String) : String :=
  "\"" ++ String.join (s.data.map jsonEscapeChar) ++ "\""

/-- Indentation produced by `JSON.stringify(_, null, 2)` at a given
depth. -/
def jsonIndent (d : Nat) : String :=
  ⟨List.replicate (2 * d) ' '⟩

mutual

/-- Rendering of a JSON value with two-space indentation, matching
`JSON.stringify(v, null, 2)`. -/
def renderJson : Nat → JsonValue → String
  | _, .str s => jsonQuote s
  | _, .num n => toString n
  | _, .bool b => cond b "true" "false"
  | _, .null => "null"
  | _, .arr [] => "[]"
  | d, .arr (it :: its) =>
    "[\n" ++ renderArrItems (d + 1) it its ++ "\n" ++ jsonIndent d ++ "]"
  | _, .obj [] => "\x7b\x7d"
  | d, .obj ((k, v) :: fs) =>
    "\x7b\n" ++ renderObjFields (d + 1) k v fs ++ "\n" ++ jsonIndent d ++ "\x7d"
termination_by d v => sizeOf v
decreasing_by all_goals (simp_wf <;> omega)

/-- Rendering of the comma-separated items of a JSON array. -/
def renderArrItems : Nat → JsonValue → List JsonValue → String
  | d, it, [] => jsonIndent d ++ renderJson d it
  | d, it, it2 :: rest =>
    jsonIndent d ++ renderJson d it ++ ",\n" ++ renderArrItems d it2 rest
termination_by d it its => 1 + sizeOf it + sizeOf its
decreasing_by all_goals (simp_wf <;> omega)

/-- Rendering of the comma-separated fields of a JSON object. -/
def renderObjFields : Nat → String → JsonValue → List (String × JsonValue) →
    String
  | d, k, v, [] => jsonIndent d ++ jsonQuote k ++ ": " ++ renderJson d v
  | d, k, v, (k2, v2) :: rest =>
    jsonIndent d ++ jsonQuote k ++ ": " ++ renderJson d v ++ ",\n" ++
      renderObjFields d k2 v2 rest
termination_by d k v fs => 1 + sizeOf v + sizeOf fs
decreasing_by all_goals (simp_wf <;> omega)

end

/-- JSON image of one usage record, in field insertion order of the
record literal built by the traversals (a null `variant` serializes to
JSON null). -/
def recordJson (r : ComponentUsageRecord) : JsonValue :=
  .obj [("id", .str r.id), ("fileName", .str r.fileName),
        ("fileKey", .str r.fileKey), ("pageName", .str r.pageName),
        ("pageId", .str r.pageId), ("nodeName", .str r.nodeName),
        ("nodeId", .str r.nodeId),
        ("instanceType", .str r.instanceType.toStr),
        ("path", .arr (r.path.map JsonValue.str)),
        ("variant", match r.variant with
          | some v => .str v
          | none => .null),
        ("timestamp", .num r.timestamp)]

/-- JSON image of the master component metadata, in field insertion
order of `extractMasterComponentInfo` (code.ts); undefined optional
fields are omitted by `JSON.stringify`. -/
def masterJson (m : MasterComponentInfo) : JsonValue :=
  .obj ([("id", JsonValue.str m.id), ("key", JsonValue.str m.key),
         ("name", JsonValue.str m.name)] ++
    (match m.variantProperties with
      | some vp =>
        [("variantProperties",
          JsonValue.obj (vp.map (fun kv => (kv.1, JsonValue.str kv.2))))]
      | none => []) ++
    [("isRemote", JsonValue.bool m.isRemote)] ++
    (match m.libraryName with
      | some l => [("libraryName", JsonValue.str l)]
      | none => []) ++
    [("sessionId", JsonValue.str m.sessionId)])

/-- JSON image of a scan result, in field insertion order of the
result literal built by `handleStartScan` (code.ts). -/
def resultJson (result : ScanResult) : JsonValue :=
  .obj [("sessionId", .str result.sessionId),
        ("masterComponent", masterJson result.masterComponent),
        ("totalInstances", .num result.totalInstances),
        ("records", .arr (result.records.map recordJson)),
        ("scanDuration", .num result.scanDuration),
        ("timestamp", .num result.timestamp),
        ("errors", .arr (result.errors.map JsonValue.str))]

/-- Embedding of `Exporter.toJSON` (exporter.ts):
`JSON.stringify(result, null, 2)`. -/
def toJSON (result : ScanResult) : String :=
  renderJson 0 (resultJson result)

/-- Insertion step of `Exporter.groupByFile`: push the record onto its
file group, or open a fresh group at the end. -/
def groupInsert (r : ComponentUsageRecord) :
    List (String × List ComponentUsageRecord) →
    List (String × List ComponentUsageRecord)
  | [] => [(r.fileName, [r])]
  | (k, rs) :: rest =>
    if k == r.fileName then (k, rs ++ [r]) :: rest
    else (k, rs) :: groupInsert r rest

/-- Embedding of `Exporter.groupByFile` (exporter.ts): group records by
file name, preserving both group first-occurrence order and record
order inside each group (JS `Map` iteration order). -/
def groupByFile (records : List ComponentUsageRecord) :
    List (String × List ComponentUsageRecord) :=
  records.foldl (fun groups r => groupInsert r groups) []

/-- Rendering of `(result.scanDuration / 1000).toFixed(2)`: seconds
with two decimals, rounding at the third decimal (binary float
artifacts at exact halfway points aside). -/
def toFixed2Seconds (ms : Nat) : String :=
  let cents := (ms + 5) / 10
  toString (cents / 100) ++ "." ++
    (if cents % 100 < 10 then "0" else "") ++ toString (cents % 100)

/-- Static fragments of the instance-row template of `Exporter.toHTML`
(the text between the interpolation holes, byte for byte). -/
def rowPart1 : String := "\n          <tr>\n            <td>"

def rowPart2 : String := "</td>\n            <td>"

def rowPart3 : String := "</td>\n            <td><code>"

def rowPart4 : String := "</code></td>\n            <td><span class=\"badge badge-"

def rowPart5 : String := "\">"

def rowPart6 : String := "</span></td>\n            <td>"

def rowPart7 : String := "</td>\n            <td><small>"

def rowPart8 : String := "</small></td>\n          </tr>\n        "

/-- Static fragments of the per-file block template of
`Exporter.toHTML`. -/
def fbPart1 : String := "\n        <div class=\"file-section\">\n          <h2>📁 "

def fbPart2 : String := " <span class=\"count\">"

def fbPart3 : String := " instances</span></h2>\n          <table>\n            <thead>\n              <tr>\n                <th>Page</th>\n                <th>Node Name</th>\n                <th>Node ID</th>\n                <th>Type</th>\n                <th>Variant</th>\n                <th>Path</th>\n              </tr>\n            </thead>\n            <tbody>\n              "

def fbPart4 : String := "\n            </tbody>\n          </table>\n        </div>\n      "

/-- Static fragments of the page template of `Exporter.toHTML`,
including the full style sheet. -/
def pagePart1 : String := "\n<!DOCTYPE html>\n<html lang=\"en\">\n<head>\n  <meta charset=\"UTF-8\">\n  <meta name=\"viewport\" content=\"width=device-width, initial-scale=1.0\">\n  <title>Component Usage Report - "

def pagePart2 : String := "</title>\n  <style>\n    * \x7b\n      margin: 0;\n      padding: 0;\n      box-sizing: border-box;\n    \x7d\n    body \x7b\n      font-family: -apple-system, BlinkMacSystemFont, \x27Segoe UI\x27, Roboto, Oxygen, Ubuntu, sans-serif;\n      background: #f5f5f5;\n      color: #333;\n      padding: 40px 20px;\n    \x7d\n    .container \x7b\n      max-width: 1200px;\n      margin: 0 auto;\n      background: white;\n      border-radius: 8px;\n      box-shadow: 0 2px 8px rgba(0,0,0,0.1);\n      padding: 40px;\n    \x7d\n    .header \x7b\n      border-bottom: 2px solid #0d99ff;\n      padding-bottom: 20px;\n      margin-bottom: 30px;\n    \x7d\n    h1 \x7b\n      font-size: 32px;\n      color: #18a0fb;\n      margin-bottom: 10px;\n    \x7d\n    .meta \x7b\n      display: flex;\n      gap: 30px;\n      flex-wrap: wrap;\n      color: #666;\n      font-size: 14px;\n    \x7d\n    .meta-item \x7b\n      display: flex;\n      align-items: center;\n      gap: 8px;\n    \x7d\n    .meta-label \x7b\n      font-weight: 600;\n    \x7d\n    .summary \x7b\n      background: #f9fafb;\n      padding: 20px;\n      border-radius: 6px;\n      margin-bottom: 30px;\n      display: grid;\n      grid-template-columns: repeat(auto-fit, minmax(200px, 1fr));\n      gap: 20px;\n    \x7d\n    .stat \x7b\n      text-align: center;\n    \x7d\n    .stat-value \x7b\n      font-size: 36px;\n      font-weight: 700;\n      color: #18a0fb;\n      display: block;\n    \x7d\n    .stat-label \x7b\n      color: #666;\n      font-size: 14px;\n      margin-top: 5px;\n    \x7d\n    .file-section \x7b\n      margin-bottom: 40px;\n    \x7d\n    h2 \x7b\n      font-size: 20px;\n      color: #333;\n      margin-bottom: 15px;\n      display: flex;\n      align-items: center;\n      justify-content: space-between;\n    \x7d\n    .count \x7b\n      background: #18a0fb;\n      color: white;\n      padding: 4px 12px;\n      border-radius: 12px;\n      font-size: 12px;\n      font-weight: 600;\n    \x7d\n    table \x7b\n      width: 100%;\n      border-collapse: collapse;\n      margin-bottom: 20px;\n    \x7d\n    th \x7b\n      background: #f9fafb;\n      padding: 12px;\n      text-align: left;\n      font-weight: 600;\n      font-size: 13px;\n      color: #666;\n      border-bottom: 2px solid #e5e7eb;\n    \x7d\n    td \x7b\n      padding: 12px;\n      border-bottom: 1px solid #e5e7eb;\n      font-size: 14px;\n    \x7d\n    tr:hover \x7b\n      background: #f9fafb;\n    \x7d\n    code \x7b\n      background: #f3f4f6;\n      padding: 2px 6px;\n      border-radius: 3px;\n      font-family: \x27Monaco\x27, \x27Courier New\x27, monospace;\n      font-size: 12px;\n      color: #6366f1;\n    \x7d\n    .badge \x7b\n      display: inline-block;\n      padding: 4px 8px;\n      border-radius: 4px;\n      font-size: 11px;\n      font-weight: 600;\n      text-transform: uppercase;\n    \x7d\n    .badge-direct \x7b\n      background: #d1fae5;\n      color: #065f46;\n    \x7d\n    .badge-nested \x7b\n      background: #dbeafe;\n      color: #1e40af;\n    \x7d\n    .badge-remote \x7b\n      background: #fef3c7;\n      color: #92400e;\n    \x7d\n    small \x7b\n      color: #999;\n      font-size: 12px;\n    \x7d\n    .footer \x7b\n      margin-top: 40px;\n      padding-top: 20px;\n      border-top: 1px solid #e5e7eb;\n      text-align: center;\n      color: #999;\n      font-size: 12px;\n    \x7d\n  </style>\n</head>\n<body>\n  <div class=\"container\">\n    <div class=\"header\">\n      <h1>Component Usage Report</h1>\n      <div class=\"meta\">\n        <div class=\"meta-item\">\n          <span class=\"meta-label\">Component:</span>\n          <span>"

def pagePart3 : String := "</span>\n        </div>\n        <div class=\"meta-item\">\n          <span class=\"meta-label\">Scan Date:</span>\n          <span>"

def pagePart4 : String := "</span>\n        </div>\n        <div class=\"meta-item\">\n          <span class=\"meta-label\">Duration:</span>\n          <span>"

def pagePart5 : String := "s</span>\n        </div>\n      </div>\n    </div>\n\n    <div class=\"summary\">\n      <div class=\"stat\">\n        <span class=\"stat-value\">"

def pagePart6 : String := "</span>\n        <span class=\"stat-label\">Total Instances</span>\n      </div>\n      <div class=\"stat\">\n        <span class=\"stat-value\">"

def pagePart7 : String := "</span>\n        <span class=\"stat-label\">Files</span>\n      </div>\n      <div class=\"stat\">\n        <span class=\"stat-value\">"

def pagePart8 : String := "</span>\n        <span class=\"stat-label\">Pages</span>\n      </div>\n    </div>\n\n    "

def pagePart9 : String := "\n\n    <div class=\"footer\">\n      Generated by Component Usage Explorer • "

def pagePart10 : String := "\n    </div>\n  </div>\n</body>\n</html>\n    "

/-- One table row of the HTML report, from the record template of
`Exporter.toHTML` (`r.variant || "-"` is the JS string fallback). -/
def htmlRow (r : ComponentUsageRecord) : String :=
  rowPart1 ++ r.pageName ++ rowPart2 ++ r.nodeName ++ rowPart3 ++ r.nodeId ++
    rowPart4 ++ r.instanceType.toStr ++ rowPart5 ++ r.instanceType.toStr ++
    rowPart6 ++ jsOrStr r.variant "-" ++ rowPart7 ++
    String.intercalate " > " r.path ++ rowPart8

/-- One per-file section of the HTML report. -/
def fileBlock (fileName : String) (records : List ComponentUsageRecord) :
    String :=
  let instanceList := String.join (records.map htmlRow)
  fbPart1 ++ fileName ++ fbPart2 ++ toString records.length ++ fbPart3 ++
    instanceList ++ fbPart4

/-- Embedding of `Exporter.toHTML` (exporter.ts).  `locale` is the
host `Date.prototype.toLocaleString` rendering of a millisecond
timestamp (an environment capability), and `now` is the value of
`new Date()` at export time: the scan-date field uses the session
timestamp, but the footer interpolates the export-time clock. -/
def toHTML (locale : Nat → String) (result : ScanResult) (now : Nat) :
    String :=
  let grouped := groupByFile result.records
  let fileBlocks := String.join (grouped.map (fun g => fileBlock g.1 g.2))
  pagePart1 ++ result.masterComponent.name ++
    pagePart2 ++ result.masterComponent.name ++
    pagePart3 ++ locale result.timestamp ++
    pagePart4 ++ toFixed2Seconds result.scanDuration ++
    pagePart5 ++ toString result.totalInstances ++
    pagePart6 ++ toString grouped.length ++
    pagePart7 ++ toString (result.records.map (fun r => r.pageId)).dedup.length ++
    pagePart8 ++ fileBlocks ++
    pagePart9 ++ locale now ++
    pagePart10

/-- Export format selector, from types.ts `ExportFormat`. -/
inductive ExportFormat where
  | json
  | csv
  | html
deriving DecidableEq, Repr

/-- Embedding of `Exporter.export` (exporter.ts; `export` is a Lean
keyword, hence the name).  The ambient clock and locale renderer reach
only the HTML branch. -/
def exportResult (locale : Nat → String) (result : ScanResult)
    (format : ExportFormat) (now : Nat) : String :=
  match format with
  | .json => toJSON result
  | .csv => toCSV result
  | .html => toHTML locale result now

-- Helper lemmas for the claim theorems.

/-- A live loop whose abort flag reads true at the top of the
iteration returns the records unchanged. -/
theorem liveLoop_abort (ctx : LiveCtx) (ab : Nat → Bool) (i : Nat)
    (q : List LiveEntry) (recs : List ComponentUsageRecord)
    (hab : ab i = true) : liveLoop ctx ab i q recs = recs := by
  cases q with
  | nil => exact liveLoop_nil ctx ab i recs
  | cons e rest =>
    obtain ⟨n, p⟩ := e
    rw [liveLoop_cons, if_pos hab]

/-- A JSON loop whose abort flag reads true at the top of the
iteration returns the records unchanged. -/
theorem jsonLoop_abort (ctx : JsonCtx) (ab : Nat → Bool) (i : Nat)
    (q : List JsonEntry) (recs : List ComponentUsageRecord)
    (hab : ab i = true) : jsonLoop ctx ab i q recs = recs := by
  cases q with
  | nil => exact jsonLoop_nil ctx ab i recs
  | cons e rest =>
    obtain ⟨n, p⟩ := e
    have hpos := jsonNodeCount_pos n
    have hc := jsonQueueFuel_cons n p rest
    obtain ⟨fuel, hfuel⟩ : ∃ f, jsonQueueFuel ((n, p) :: rest) = f + 1 :=
      ⟨jsonQueueFuel ((n, p) :: rest) - 1, by omega⟩
    rw [jsonLoop, hfuel]
    simp [jsonLoopF, hab]

/-- An aborted run is an initial segment of the never-aborted run: the
aborted loop returns some records and the full run extends them. -/
theorem liveLoopF_extends (ctx : LiveCtx) (ab : Nat → Bool) :
    ∀ (fuel : Nat) (q : List LiveEntry) (i : Nat)
      (recs : List ComponentUsageRecord),
      ∃ t, liveLoopF ctx (fun _ => false) fuel i q recs =
        liveLoopF ctx ab fuel i q recs ++ t := by
  intro fuel
  induction fuel with
  | zero => intro q i recs; exact ⟨[], by simp [liveLoopF]⟩
  | succ fuel ih =>
    intro q i recs
    cases q with
    | nil => exact ⟨[], by simp [liveLoopF]⟩
    | cons e rest =>
      obtain ⟨n, p⟩ := e
      cases hab : ab i with
      | true =>
        refine ⟨liveLoopF ctx (fun _ => false) (fuel + 1) i ((n, p) :: rest) [],
          ?_⟩
        rw [show liveLoopF ctx ab (fuel + 1) i ((n, p) :: rest) recs = recs by
          simp [liveLoopF, hab]]
        exact liveLoopF_append ctx (fun _ => false) (fuel + 1) _ i recs
      | false =>
        simp only [liveLoopF, hab, Bool.false_eq_true, if_false]
        exact ih _ _ _

/-- One JSON loop step on an instance with a falsy `componentId`: the
node matches nothing and its children are never enqueued. -/
theorem jsonLoop_step_skip (ctx : JsonCtx) (master : MasterComponentInfo)
    (i : Nat) (n : JsonNode) (p : List String) (rest : List JsonEntry)
    (recs : List ComponentUsageRecord)
    (hm : ctx.masterComponent = some master)
    (hinst : n.type = "INSTANCE")
    (hfal : jsFalsyStr n.componentId = true) :
    jsonLoop ctx (fun _ => false) i ((n, p) :: rest) recs =
      jsonLoop ctx (fun _ => false) i rest recs := by
  have hpos := jsonNodeCount_pos n
  have hc := jsonQueueFuel_cons n p rest
  obtain ⟨fuel, hfuel⟩ : ∃ f, jsonQueueFuel ((n, p) :: rest) = f + 1 :=
    ⟨jsonQueueFuel ((n, p) :: rest) - 1, by omega⟩
  rw [jsonLoop, hfuel]
  simp only [jsonLoopF, Bool.false_eq_true, if_false]
  rw [hm]
  dsimp only
  rw [if_pos (by simp [hinst]), if_pos hfal]
  rw [jsonLoopF_fuel_irrelevant ctx (fun _ => false) fuel rest (i + 1) recs
    (by omega)]
  rw [jsonLoop, jsonLoop, jsonLoopF_counter_false ctx _ rest (i + 1) i]

/-- One JSON loop step on a matching instance with a non-falsy
`componentId`: the record is appended and the children are enqueued. -/
theorem jsonLoop_step_match (ctx : JsonCtx) (master : MasterComponentInfo)
    (i : Nat) (n : JsonNode) (p : List String) (rest : List JsonEntry)
    (recs : List ComponentUsageRecord)
    (hm : ctx.masterComponent = some master)
    (hinst : n.type = "INSTANCE")
    (hfal : jsFalsyStr n.componentId = false)
    (hmat : jsonMatches master ctx.componentKeyToNodeIdMap ctx.nodeIdToKeyMap
      n (n.componentId.getD "") = true) :
    jsonLoop ctx (fun _ => false) i ((n, p) :: rest) recs =
      jsonLoop ctx (fun _ => false) i
        (rest ++ n.children.map (fun c => (c, p ++ [c.name])))
        (recs ++ [jsonRecord ctx n p]) := by
  have hpos := jsonNodeCount_pos n
  have hc := jsonQueueFuel_cons n p rest
  have hstep := jsonStep_fuel n p rest
  obtain ⟨fuel, hfuel⟩ : ∃ f, jsonQueueFuel ((n, p) :: rest) = f + 1 :=
    ⟨jsonQueueFuel ((n, p) :: rest) - 1, by omega⟩
  rw [jsonLoop, hfuel]
  simp only [jsonLoopF, Bool.false_eq_true, if_false]
  rw [hm]
  dsimp only
  rw [if_pos (by simp [hinst])]
  rw [if_neg (by simp [hfal])]
  rw [if_pos hmat]
  rw [jsonLoopF_fuel_irrelevant ctx (fun _ => false) fuel _ (i + 1) _
    (by omega)]
  rw [jsonLoop, jsonLoop, jsonLoopF_counter_false ctx _ _ (i + 1) i]

/-- Shape of a positive classification: the node is an instance, its
main component resolved, and the classification flags record the
nesting depth and the remote flag of the main component. -/
theorem classifyNode_fields (master : Option MasterComponentInfo)
    (n : SceneNode) (p : List String) (c : NodeClassification)
    (h : classifyNode master n p = some c) :
    ∃ m mc, master = some m ∧ n.mainComponent = some mc ∧
      c.isInstance = true ∧ c.isNested = decide (p.length > 1) ∧
      c.isRemote = mc.remote := by
  unfold classifyNode at h
  cases master with
  | none => simp at h
  | some m =>
    dsimp only at h
    by_cases ht : n.type ≠ "INSTANCE"
    · rw [if_pos ht] at h; exact absurd h (by simp)
    · rw [if_neg ht] at h
      cases hmc : n.mainComponent with
      | none => rw [hmc] at h; exact absurd h (by simp)
      | some mc =>
        rw [hmc] at h
        dsimp only at h
        split at h
        · exact absurd h (by simp)
        · obtain rfl : _ = c := Option.some.inj h
          exact ⟨m, mc, rfl, rfl, rfl, rfl, rfl⟩

/-- Tree positions: `PathTo root n p` holds when `n` is reachable from
`root` through child edges and `p` is the sequence of node names from
the root down to `n`, both inclusive. -/
inductive PathTo : SceneNode → SceneNode → List String → Prop
  | refl (n : SceneNode) : PathTo n n [n.name]
  | step (root m c : SceneNode) (p : List String) :
      PathTo root m p → c ∈ m.children → PathTo root c (p ++ [c.name])

/-- A breadcrumb path starts with the name of the traversal root. -/
theorem pathTo_head (root n : SceneNode) (p : List String)
    (h : PathTo root n p) : p.head? = some root.name := by
  induction h with
  | refl => rfl
  | step m c p hp hc ih =>
    cases p with
    | nil => simp at ih
    | cons a t => simpa using ih

/-- A breadcrumb path ends with the name of the reached node. -/
theorem pathTo_getLast (root n : SceneNode) (p : List String)
    (h : PathTo root n p) : p.getLast? = some n.name := by
  induction h with
  | refl => rfl
  | step m c p hp hc ih => simp

/-- Every record produced by one `traverseNode` call is either
pre-existing or emitted at a tree position of the traversed subtree. -/
theorem traverseNode_emit_pathTo (ctx : LiveCtx) (ab : Nat → Bool)
    (i : Nat) (child : SceneNode) (recs : List ComponentUsageRecord) :
    ∀ r ∈ traverseNode ctx ab i child [] recs,
      r ∈ recs ∨ ∃ n p, PathTo child n p ∧ liveEmit ctx n p = some r := by
  intro r hr
  unfold traverseNode at hr
  by_cases hab : ab i = true
  · rw [if_pos hab] at hr
    exact Or.inl hr
  · rw [if_neg hab] at hr
    exact liveLoopF_emit_source ctx ab (fun n p => PathTo child n p)
      (fun n p hp c hc => PathTo.step child n c p hp hc)
      _ _ _ _
      (by
        intro e he
        cases List.mem_singleton.mp he
        simpa using PathTo.refl child)
      r hr

/-- Every record produced by the page fold of `scanPage` is either
pre-existing or emitted at a tree position below one of the top-level
children. -/
theorem foldl_traverse_emit (ctx : LiveCtx) (ab : Nat → Bool) :
    ∀ (cs : List SceneNode) (acc : List ComponentUsageRecord),
      ∀ r ∈ cs.foldl (fun acc child => traverseNode ctx ab 0 child [] acc) acc,
        r ∈ acc ∨ ∃ c0 ∈ cs, ∃ n p, PathTo c0 n p ∧ liveEmit ctx n p = some r := by
  intro cs
  induction cs with
  | nil => intro acc r hr; exact Or.inl hr
  | cons c cs ih =>
    intro acc r hr
    simp only [List.foldl_cons] at hr
    rcases ih _ r hr with hin | ⟨c0, hc0, n, p, hp, hemit⟩
    · rcases traverseNode_emit_pathTo ctx ab 0 c acc r hin with h1 | ⟨n, p, hp, hemit⟩
      · exact Or.inl h1
      · exact Or.inr ⟨c, by simp, n, p, hp, hemit⟩
    · exact Or.inr ⟨c0, List.mem_cons_of_mem _ hc0, n, p, hp, hemit⟩

-- Claim theorems.

/-- C1 (amended): every record emitted by the live traversal has kind
nested when the breadcrumb path is longer than one, else remote when
the resolved main component carries the remote (library) flag, else
direct; every record emitted by the remote-JSON traversal is
classified by breadcrumb depth alone — nested or direct — and the
remote kind is never produced in that mode. -/
theorem c1_kind_classification :
    (∀ (ctx : LiveCtx) (n : SceneNode) (p : List String)
       (r : ComponentUsageRecord),
       liveEmit ctx n p = some r →
       ∃ mc, n.mainComponent = some mc ∧ r.path = p ∧
         r.instanceType =
           (if p.length > 1 then .nested
            else if mc.remote then .remote else .direct)) ∧
    (∀ (ctx : JsonCtx) (ab : Nat → Bool) (fuel i : Nat)
       (q : List JsonEntry),
       ∀ r ∈ jsonLoopF ctx ab fuel i q [],
         r.instanceType =
           (if r.path.length > 1 then .nested else .direct)) := by
  constructor
  · intro ctx n p r h
    obtain ⟨hpath, hname, hpage, c, hc, rfl⟩ := liveEmit_fields ctx n p r h
    obtain ⟨m, mc, hmm, hmc, hinst, hnested, hremote⟩ :=
      classifyNode_fields _ n p c hc
    refine ⟨mc, hmc, hpath, ?_⟩
    simp only [liveRecord, hnested, hremote]
    by_cases hp : p.length > 1
    · simp [hp]
    · simp [hp]
  · intro ctx ab fuel i q r hr
    rcases jsonLoopF_instanceType ctx ab fuel q i [] r hr with hin | hprop
    · cases hin
    · exact hprop

/-- Library master component used for the C1 counterexample: a remote
component whose origin differs from the scanned file. -/
def c1Master : MasterComponentInfo :=
  { id := "1:2", key := "LIBKEY", name := "Button",
    variantProperties := none, isRemote := true,
    libraryName := some "Design System", sessionId := "scan-1" }

/-- An instance of the library component sitting directly under a
page of a different file, referencing it by content key. -/
def c1Instance : JsonNode :=
  .mk "5:1" "Button" "INSTANCE" (some "LIBKEY") []

/-- The scanned page of the C1 counterexample. -/
def c1Page : JsonNode := .mk "0:1" "Page 1" "CANVAS" none [c1Instance]

/-- The scanned remote file of the C1 counterexample. -/
def c1File : FileJson :=
  { name := some "Other File",
    document := some { name := some "Document", children := [c1Page] },
    components := [] }

/-- C1 counterexample: scanning a different file for a remote library
component finds the instance directly under the page, yet records it
with kind direct, not remote — the JSON traversal never produces the
remote kind. -/
theorem c1_counterexample :
    ((scanFileJsonInternal (some c1Master) c1File "OTHERFILE" 7 []).map
      (fun r => r.instanceType)) = [.direct] ∧
    c1Master.isRemote = true ∧ c1File.name ≠ some "Design System" := by
  constructor
  · decide
  · constructor
    · rfl
    · decide

/-- C1 witness: the live branch of the claim theorem applied to a
concrete nested remote instance. -/
def c1LiveMain : MainComponentHandle :=
  { id := "1:2", key := "LIBKEY", remote := true }

/-- Concrete live instance node for the C1 witness. -/
def c1LiveNode : SceneNode :=
  .mk "6:1" "Button" "INSTANCE" (some c1LiveMain) none []

/-- Concrete live traversal context for the C1 witness. -/
def c1Ctx : LiveCtx :=
  { masterComponent := some c1Master, fileKey := "FK", fileName := "File",
    pageName := "Page 1", pageId := "0:1", now := 7 }

/-- C1 witness: at a concrete emission the claimed kind equation
holds. -/
theorem c1_witness :
    ∃ r, liveEmit c1Ctx c1LiveNode ["Button"] = some r ∧
      ∃ mc, c1LiveNode.mainComponent = some mc ∧ r.path = ["Button"] ∧
        r.instanceType =
          (if (["Button"] : List String).length > 1 then .nested
           else if mc.remote then .remote else .direct) := by
  refine ⟨liveRecord c1Ctx
    { isInstance := true, isDirect := false, isNested := false,
      isRemote := true, masterComponentKey := some "LIBKEY",
      variant := none } c1LiveNode ["Button"], ?_, ?_⟩
  · decide
  · exact c1_kind_classification.1 c1Ctx c1LiveNode ["Button"] _ (by decide)

/-- C2: during a whole-project scan every per-file failure — fetch
rejection (including a timeout), HTTP error status, body read failure,
empty body, oversized body, malformed JSON, missing document — is
logged, counted as skipped, and the loop continues with the remaining
files, leaving the collected records untouched; the only error the
orchestration returns is the missing-token configuration error raised
before the loop. -/
theorem c2_per_file_failures_skipped :
    (∀ (master : MasterComponentInfo) (now : Nat) (fileKey : String)
       (outcome : FetchOutcome) (rest : List (String × FetchOutcome)),
       isPerFileFailure outcome = true →
       scanExternalFilesLoop master now ((fileKey, outcome) :: rest) =
         { records := (scanExternalFilesLoop master now rest).records
           skippedFiles :=
             (scanExternalFilesLoop master now rest).skippedFiles + 1
           successfulFiles :=
             (scanExternalFilesLoop master now rest).successfulFiles
           skipLog := fileKey ::
             (scanExternalFilesLoop master now rest).skipLog }) ∧
    (∀ (master : MasterComponentInfo) (token : String)
       (files : List (String × FetchOutcome)) (now : Nat),
       scanExternalFiles master (some token) files now =
         .ok (scanExternalFilesLoop master now files)) := by
  constructor
  · intro master now fileKey outcome rest h
    simp only [scanExternalFilesLoop,
      processExternalFile_of_failure master now fileKey outcome h]
  · intro master token files now
    rfl

/-- Master component used by the C2 witness. -/
def c2Master : MasterComponentInfo :=
  { id := "2:2", key := "KEY2", name := "Chip", variantProperties := none,
    isRemote := false, libraryName := none, sessionId := "scan-2" }

/-- C2 witness: a concrete scan over one 404 file and one malformed
file completes, counts two skips, logs both keys, and aborts
nothing. -/
theorem c2_witness :
    scanExternalFilesLoop c2Master 5
      [("F1", .httpError 404), ("F2", .bodyOf 17 none)] =
      { records := [], skippedFiles := 2, successfulFiles := 0,
        skipLog := ["F1", "F2"] } := by
  have h1 := c2_per_file_failures_skipped.1 c2Master 5 "F1" (.httpError 404)
    [("F2", .bodyOf 17 none)] (by decide)
  have h2 := c2_per_file_failures_skipped.1 c2Master 5 "F2"
    (.bodyOf 17 none) [] (by decide)
  rw [h1, h2]
  rfl

/-- C3: cancellation semantics of the shared abort flag.  A loop that
observes the flag at the top of an iteration exits at once with the
records collected so far (both traversal modes); the entry check of
`traverseNode` does the same before a new subtree; any aborted run is
an initial segment of the never-aborted run (no rollback, no further
records); `abort` itself touches no records; and cancelling when no
scan is in flight is a no-op. -/
theorem c3_abort_semantics :
    (∀ (ctx : LiveCtx) (ab : Nat → Bool) (i : Nat) (q : List LiveEntry)
       (recs : List ComponentUsageRecord), ab i = true →
       liveLoop ctx ab i q recs = recs) ∧
    (∀ (ctx : JsonCtx) (ab : Nat → Bool) (i : Nat) (q : List JsonEntry)
       (recs : List ComponentUsageRecord), ab i = true →
       jsonLoop ctx ab i q recs = recs) ∧
    (∀ (ctx : LiveCtx) (ab : Nat → Bool) (i : Nat) (node : SceneNode)
       (parentPath : List String) (recs : List ComponentUsageRecord),
       ab i = true → traverseNode ctx ab i node parentPath recs = recs) ∧
    (∀ (ctx : LiveCtx) (ab : Nat → Bool) (i : Nat) (q : List LiveEntry)
       (recs : List ComponentUsageRecord),
       ∃ t, liveLoop ctx (fun _ => false) i q recs =
         liveLoop ctx ab i q recs ++ t) ∧
    (∀ e : EngineState, (ScanEngine.abort e).records = e.records) ∧
    handleCancelScan { currentScan := none } =
      ({ currentScan := none }, none, none) := by
  refine ⟨?_, ?_, ?_, ?_, fun e => rfl, rfl⟩
  · exact liveLoop_abort
  · exact jsonLoop_abort
  · intro ctx ab i node parentPath recs hab
    unfold traverseNode
    rw [if_pos hab]
  · intro ctx ab i q recs
    exact liveLoopF_extends ctx ab (liveQueueFuel q) q i recs

/-- Concrete traversal context for the C3 witness. -/
def c3Ctx : LiveCtx :=
  { masterComponent := some c2Master, fileKey := "FK3", fileName := "F",
    pageName := "P", pageId := "0:9", now := 3 }

/-- Concrete subtree for the C3 witness. -/
def c3Node : SceneNode := .mk "8:1" "Frame" "FRAME" none none []

/-- C3 witness: with the flag already set, the loop with a pending
work item returns the records collected so far, unchanged. -/
theorem c3_witness :
    liveLoop c3Ctx (fun _ => true) 0 [(c3Node, ["Frame"])] [] = [] :=
  c3_abort_semantics.1 c3Ctx (fun _ => true) 0 [(c3Node, ["Frame"])] [] rfl

/-- C4: one `traverseNode` call appends its emissions to the record
list in order, and those emissions are in breadth-first level order:
breadcrumb depths are nondecreasing along the emitted sequence, so no
record of a deeper node precedes the record of a shallower node of the
same traversal pass. -/
theorem c4_bfs_level_order (ctx : LiveCtx) (node : SceneNode)
    (parentPath : List String) (recs : List ComponentUsageRecord) :
    traverseNode ctx (fun _ => false) 0 node parentPath recs =
      recs ++ liveLoop ctx (fun _ => false) 1
        [(node, parentPath ++ [node.name])] [] ∧
    List.Chain' (· ≤ ·)
      ((liveLoop ctx (fun _ => false) 1
        [(node, parentPath ++ [node.name])] []).map
        (fun r => r.path.length)) := by
  constructor
  · unfold traverseNode
    rw [if_neg (by simp)]
    exact liveLoopF_append ctx (fun _ => false) _ _ 1 recs
  · exact liveLoopF_chain ctx (fun _ => false) _ _ 1
      (depthInv_singleton node (parentPath ++ [node.name]))

/-- C5: in live-tree mode an instance node matches exactly when its
resolved main component agrees with the master component on the node
id (stable id) or on the component key (content key); an instance
whose main component resolves to null never matches. -/
theorem c5_live_identity_match (m : MasterComponentInfo) (n : SceneNode)
    (p : List String) (htype : n.type = "INSTANCE") :
    ((classifyNode (some m) n p).isSome ↔
      ∃ mc, n.mainComponent = some mc ∧ (mc.id = m.id ∨ mc.key = m.key)) ∧
    (n.mainComponent = none → classifyNode (some m) n p = none) := by
  constructor
  · constructor
    · intro hsome
      rw [Option.isSome_iff_exists] at hsome
      obtain ⟨c, hc⟩ := hsome
      unfold classifyNode at hc
      dsimp only at hc
      rw [if_neg (by simp [htype])] at hc
      cases hmc : n.mainComponent with
      | none => rw [hmc] at hc; exact absurd hc (by simp)
      | some mc =>
        rw [hmc] at hc
        dsimp only at hc
        by_cases hcond : ¬ mc.id = m.id ∧ ¬ mc.key = m.key
        · rw [if_pos hcond] at hc; exact absurd hc (by simp)
        · refine ⟨mc, rfl, ?_⟩
          by_cases h1 : mc.id = m.id
          · exact Or.inl h1
          · refine Or.inr ?_
            by_cases h2 : mc.key = m.key
            · exact h2
            · exact absurd ⟨h1, h2⟩ hcond
    · rintro ⟨mc, hmc, hor⟩
      unfold classifyNode
      dsimp only
      rw [if_neg (by simp [htype]), hmc]
      dsimp only
      rw [if_neg (by tauto)]
      simp
  · intro hmc
    unfold classifyNode
    dsimp only
    rw [if_neg (by simp [htype]), hmc]

/-- Resolved main component for the C5 witness, agreeing with the
master on the stable id only. -/
def c5Main : MainComponentHandle :=
  { id := "4:4", key := "KEY5", remote := false }

/-- Master component for the C5 witness. -/
def c5Master : MasterComponentInfo :=
  { id := "4:4", key := "OTHER", name := "Tag", variantProperties := none,
    isRemote := false, libraryName := none, sessionId := "scan-5" }

/-- Instance node for the C5 witness. -/
def c5Node : SceneNode := .mk "9:9" "Tag" "INSTANCE" (some c5Main) none []

/-- C5 witness: a concrete stable-id match is reported. -/
theorem c5_witness : (classifyNode (some c5Master) c5Node ["Tag"]).isSome :=
  (c5_live_identity_match c5Master c5Node ["Tag"] rfl).1.mpr
    ⟨c5Main, rfl, Or.inl rfl⟩

/-- Master component for the C6 theorems. -/
def c6Master : MasterComponentInfo :=
  { id := "2:7", key := "KEY6", name := "Card", variantProperties := none,
    isRemote := false, libraryName := none, sessionId := "scan-6" }

/-- An instance whose stable reference was lost entirely: no
`componentId` at all, only the display name. -/
def c6Lost : JsonNode := .mk "9:1" "Card" "INSTANCE" none []

/-- JSON traversal context for the C6 theorems. -/
def c6Ctx : JsonCtx :=
  { masterComponent := some c6Master, componentKeyToNodeIdMap := [],
    nodeIdToKeyMap := [], fileKey := "F6", fileName := "File",
    pageName := "P", pageId := "0:1", now := 3 }

/-- C6 counterexample: an instance node whose display name equals the
target name but whose stable reference was lost entirely (absent
`componentId`) is not matched — the falsy-componentId guard fires
before any strategy, name fallback included, can run. -/
theorem c6_counterexample :
    jsonLoop c6Ctx (fun _ => false) 0 [(c6Lost, ["Card"])] [] = [] ∧
    c6Lost.name = c6Master.name := by
  exact ⟨by decide, rfl⟩

/-- C6 (amended): in remote-JSON mode every instance node that still
carries a non-falsy `componentId` and whose display name equals the
target display name is matched by the strategy-5 name fallback — even
when strategies 1 to 4 all fail — and a record is emitted; instances
whose `componentId` is absent or empty are skipped instead. -/
theorem c6_name_fallback (ctx : JsonCtx) (master : MasterComponentInfo)
    (i : Nat) (n : JsonNode) (p : List String) (rest : List JsonEntry)
    (recs : List ComponentUsageRecord)
    (hm : ctx.masterComponent = some master)
    (hinst : n.type = "INSTANCE")
    (hfal : jsFalsyStr n.componentId = false)
    (hname : n.name = master.name) :
    jsonMatches master ctx.componentKeyToNodeIdMap ctx.nodeIdToKeyMap n
      (n.componentId.getD "") = true ∧
    jsonLoop ctx (fun _ => false) i ((n, p) :: rest) recs =
      jsonLoop ctx (fun _ => false) i
        (rest ++ n.children.map (fun c => (c, p ++ [c.name])))
        (recs ++ [jsonRecord ctx n p]) := by
  have hmat : jsonMatches master ctx.componentKeyToNodeIdMap
      ctx.nodeIdToKeyMap n (n.componentId.getD "") = true := by
    unfold jsonMatches
    simp [hname]
  exact ⟨hmat,
    jsonLoop_step_match ctx master i n p rest recs hm hinst hfal hmat⟩

/-- An instance with a dangling `componentId` that resolves through no
strategy but name, for the C6 witness. -/
def c6Dangling : JsonNode := .mk "9:2" "Card" "INSTANCE" (some "deadbeef") []

/-- C6 witness: the name fallback matches a concrete dangling-reference
instance. -/
theorem c6_witness :
    jsonMatches c6Master c6Ctx.componentKeyToNodeIdMap c6Ctx.nodeIdToKeyMap
      c6Dangling (c6Dangling.componentId.getD "") = true :=
  (c6_name_fallback c6Ctx c6Master 0 c6Dangling [] [] [] rfl rfl rfl rfl).1

/-- Resolved main component for the C7 scenario. -/
def c7Main : MainComponentHandle :=
  { id := "3:3", key := "KEY7", remote := false }

/-- Master component for the C7 scenario. -/
def c7Master : MasterComponentInfo :=
  { id := "3:3", key := "KEY7", name := "N", variantProperties := none,
    isRemote := false, libraryName := none, sessionId := "scan-7" }

/-- A matching instance directly under the page, for the C7
scenario. -/
def c7Node : SceneNode := .mk "7:1" "N" "INSTANCE" (some c7Main) none []

/-- The scanned page of the C7 scenario. -/
def c7Page : SceneNode := .mk "0:2" "P" "PAGE" none none [c7Node]

/-- C7 counterexample: the single emitted record has breadcrumb path
starting (and ending) at the top-level child name, not at the page
name — the page name is carried only in the separate `pageName`
field. -/
theorem c7_counterexample :
    ((scanPage (some c7Master) c7Page "FK" "File" 4 []).map
      (fun r => r.path.head?)) = [some "N"] ∧
    c7Page.name = "P" ∧ ("N" : String) ≠ "P" := by
  refine ⟨by decide, rfl, by decide⟩

/-- C7 (amended): every record emitted by a page scan carries the page
name in its `pageName` field, and its breadcrumb path is the ordered
sequence of ancestor names from a top-level child of the page (not the
page itself) down to the recorded node, both inclusive. -/
theorem c7_breadcrumbs (masterComponent : Option MasterComponentInfo)
    (page : SceneNode) (fileKey fileName : String) (now : Nat) :
    ∀ r ∈ scanPage masterComponent page fileKey fileName now [],
      r.pageName = page.name ∧
      ∃ c0 n, c0 ∈ page.children ∧ PathTo c0 n r.path ∧
        r.nodeName = n.name ∧ r.path.head? = some c0.name ∧
        r.path.getLast? = some n.name := by
  intro r hr
  unfold scanPage at hr
  rcases foldl_traverse_emit _ _ page.children [] r hr with
    hin | ⟨c0, hc0, n, p, hp, hemit⟩
  · cases hin
  · obtain ⟨hpath, hname, hpage, c, hc, hrec⟩ := liveEmit_fields _ n p r hemit
    refine ⟨by rw [hpage], c0, n, hc0, ?_, hname, ?_, ?_⟩
    · rw [hpath]; exact hp
    · rw [hpath]; exact pathTo_head c0 n p hp
    · rw [hpath]; exact pathTo_getLast c0 n p hp

/-- The record emitted in the C7 scenario. -/
def c7Record : ComponentUsageRecord :=
  { id := "FK-7:1-4", fileName := "File", fileKey := "FK", pageName := "P",
    pageId := "0:2", nodeName := "N", nodeId := "7:1",
    instanceType := .direct, path := ["N"], variant := none, timestamp := 4 }

/-- C7 witness: the amended breadcrumb characterization holds at the
concrete emitted record. -/
theorem c7_witness :
    c7Record ∈ scanPage (some c7Master) c7Page "FK" "File" 4 [] ∧
    (c7Record.pageName = c7Page.name ∧
      ∃ c0 n, c0 ∈ c7Page.children ∧ PathTo c0 n c7Record.path ∧
        c7Record.nodeName = n.name ∧ c7Record.path.head? = some c0.name ∧
        c7Record.path.getLast? = some n.name) := by
  have hmem : c7Record ∈ scanPage (some c7Master) c7Page "FK" "File" 4 [] := by
    decide
  exact ⟨hmem,
    c7_breadcrumbs (some c7Master) c7Page "FK" "File" 4 c7Record hmem⟩

/-- Master component of the C8 session. -/
def c8Master : MasterComponentInfo :=
  { id := "1:1", key := "K8", name := "Btn", variantProperties := none,
    isRemote := false, libraryName := none, sessionId := "sess-8" }

/-- A completed session for the C8 theorems. -/
def c8Session : ScanResult :=
  { sessionId := "sess-8", masterComponent := c8Master, totalInstances := 0,
    records := [], scanDuration := 1234, timestamp := 1700000000000,
    errors := [] }

/-- The session-determined part of an HTML report: everything before
the footer clock. -/
def htmlPrefix (locale : Nat → String) (result : ScanResult) : String :=
  pagePart1 ++ result.masterComponent.name ++ pagePart2 ++
    result.masterComponent.name ++ pagePart3 ++ locale result.timestamp ++
    pagePart4 ++ toFixed2Seconds result.scanDuration ++ pagePart5 ++
    toString result.totalInstances ++ pagePart6 ++
    toString (groupByFile result.records).length ++ pagePart7 ++
    toString (result.records.map (fun r => r.pageId)).dedup.length ++
    pagePart8 ++
    String.join
      ((groupByFile result.records).map (fun g => fileBlock g.1 g.2)) ++
    pagePart9

/-- The HTML report splits into a session-determined part, the
rendered export-time clock, and the static tail. -/
theorem toHTML_footer (locale : Nat → String) (result : ScanResult)
    (u : Nat) :
    toHTML locale result u =
      htmlPrefix locale result ++ (locale u ++ pagePart10) := by
  simp only [toHTML, htmlPrefix]
  rw [String.append_assoc]

/-- Appending on the left is cancellable for strings. -/
theorem string_append_left_cancel (s a b : String) (h : s ++ a = s ++ b) :
    a = b := by
  cases s with | mk ls =>
  cases a with | mk la =>
  cases b with | mk lb =>
  have h2 : ls ++ la = ls ++ lb := congrArg String.data h
  exact congrArg String.mk (List.append_cancel_left h2)

/-- Appending on the right is cancellable for strings. -/
theorem string_append_right_cancel (s a b : String) (h : a ++ s = b ++ s) :
    a = b := by
  cases s with | mk ls =>
  cases a with | mk la =>
  cases b with | mk lb =>
  have h2 : la ++ ls = lb ++ ls := congrArg String.data h
  exact congrArg String.mk (List.append_cancel_right h2)

/-- C8 counterexample: exporting the same completed session to HTML at
two different export-time clock values produces different bytes — the
report footer interpolates `new Date().toLocaleString()` — so HTML
export is not determined by the session alone.  The concrete locale
renderer has second granularity, like `toLocaleString`. -/
theorem c8_counterexample :
    toHTML (fun n => toString (n / 1000)) c8Session 1700000001000 ≠
      toHTML (fun n => toString (n / 1000)) c8Session 1700000002000 := by
  intro h
  rw [toHTML_footer, toHTML_footer] at h
  have h2 := string_append_left_cancel _ _ _ h
  have h3 := string_append_right_cancel _ _ _ h2
  exact absurd h3 (by decide)

/-- C8 (amended): JSON and CSV exports of a session are byte-identical
across export times — neither branch reads the clock — while the HTML
export is a fixed session-determined text followed by the rendered
export-time clock and the static tail: it changes whenever the clock
renders differently. -/
theorem c8_export_determinism (locale : Nat → String)
    (result : ScanResult) (t t2 : Nat) :
    exportResult locale result .json t = exportResult locale result .json t2 ∧
    exportResult locale result .csv t = exportResult locale result .csv t2 ∧
    ∃ pre, ∀ u : Nat,
      toHTML locale result u = pre ++ (locale u ++ pagePart10) :=
  ⟨rfl, rfl, htmlPrefix locale result, toHTML_footer locale result⟩

/-- C9: result store retention.  A write never leaves the store above
`maxStoredScans` sessions; a write that lands exactly one over
capacity evicts precisely the entry with the smallest timestamp,
whatever the insertion order was; re-saving an existing session id
overwrites in place without changing the key set, its order or the
store size; and the default capacity is 50. -/
theorem c9_store_retention :
    (∀ (st : PluginStorage) (r : ScanResult),
       (st.scans.map (fun e => e.1)).Nodup →
       (setRecord st r).scans.length ≤ st.settings.maxStoredScans) ∧
    (∀ (st : PluginStorage) (r : ScanResult),
       ((scansSet st.scans r.sessionId r).map
         (fun e => e.2.timestamp)).Nodup →
       (scansSet st.scans r.sessionId r).length =
         st.settings.maxStoredScans + 1 →
       ∃ en ∈ scansSet st.scans r.sessionId r,
         (∀ f ∈ scansSet st.scans r.sessionId r,
           ¬ f.1 = en.1 → en.2.timestamp < f.2.timestamp) ∧
         (setRecord st r).scans =
           scansDelete (scansSet st.scans r.sessionId r) en.1) ∧
    (∀ (st : PluginStorage) (r : ScanResult),
       r.sessionId ∈ st.scans.map (fun e => e.1) →
       st.scans.length ≤ st.settings.maxStoredScans →
       (setRecord st r).scans.map (fun e => e.1) =
         st.scans.map (fun e => e.1) ∧
       (setRecord st r).scans.lookup r.sessionId = some r ∧
       (setRecord st r).scans.length = st.scans.length) ∧
    getDefaultStorage.settings.maxStoredScans = 50 :=
  ⟨setRecord_length_le, setRecord_evicts_min, setRecord_overwrite, rfl⟩

/-- Master component of the C9 witness sessions. -/
def c9Master : MasterComponentInfo :=
  { id := "3:1", key := "K9", name := "Pill", variantProperties := none,
    isRemote := false, libraryName := none, sessionId := "a" }

/-- Older-timestamp session already in the store (C9 witness). -/
def c9ResA : ScanResult :=
  { sessionId := "a", masterComponent := c9Master, totalInstances := 0,
    records := [], scanDuration := 1, timestamp := 100, errors := [] }

/-- Newly inserted session with the smallest timestamp (C9 witness). -/
def c9ResB : ScanResult :=
  { sessionId := "b", masterComponent := c9Master, totalInstances := 0,
    records := [], scanDuration := 1, timestamp := 50, errors := [] }

/-- One-slot store holding the older session (C9 witness). -/
def c9St : PluginStorage :=
  { scans := [("a", c9ResA)], lastScanId := some "a",
    settings := { autoSaveScans := true, maxStoredScans := 1 } }

/-- C9 witness: inserting a second session into a one-slot store
evicts exactly the smallest-timestamp entry. -/
theorem c9_witness :
    ∃ en ∈ scansSet c9St.scans c9ResB.sessionId c9ResB,
      (∀ f ∈ scansSet c9St.scans c9ResB.sessionId c9ResB,
        ¬ f.1 = en.1 → en.2.timestamp < f.2.timestamp) ∧
      (setRecord c9St c9ResB).scans =
        scansDelete (scansSet c9St.scans c9ResB.sessionId c9ResB) en.1 :=
  c9_store_retention.2.1 c9St c9ResB (by decide) (by decide)

/-- C10: in remote-JSON traversal an INSTANCE node with an absent or
empty `componentId` is never matched and its whole subtree is pruned —
the `continue` skips the child enqueueing — so the loop continues as
though the node and everything below it did not exist, and a traversal
rooted at such a node reports nothing at all. -/
theorem c10_falsy_componentId_prunes (ctx : JsonCtx)
    (master : MasterComponentInfo) (i : Nat) (n : JsonNode)
    (p : List String) (rest : List JsonEntry)
    (recs : List ComponentUsageRecord)
    (hm : ctx.masterComponent = some master)
    (hinst : n.type = "INSTANCE")
    (hfal : jsFalsyStr n.componentId = true) :
    jsonLoop ctx (fun _ => false) i ((n, p) :: rest) recs =
      jsonLoop ctx (fun _ => false) i rest recs ∧
    jsonLoop ctx (fun _ => false) i [(n, p)] recs = recs := by
  refine ⟨jsonLoop_step_skip ctx master i n p rest recs hm hinst hfal, ?_⟩
  rw [jsonLoop_step_skip ctx master i n p [] recs hm hinst hfal]
  exact jsonLoop_nil ctx _ i recs

/-- Master component of the C10 witness. -/
def c10Master : MasterComponentInfo :=
  { id := "5:5", key := "KEY10", name := "Btn", variantProperties := none,
    isRemote := false, libraryName := none, sessionId := "scan-10" }

/-- A nested instance that would match the master by key (C10
witness). -/
def c10Inner : JsonNode := .mk "6:2" "Btn" "INSTANCE" (some "KEY10") []

/-- An instance with no `componentId` wrapping the matching instance
(C10 witness). -/
def c10Node : JsonNode := .mk "6:1" "Wrapper" "INSTANCE" none [c10Inner]

/-- JSON traversal context of the C10 witness. -/
def c10Ctx : JsonCtx :=
  { masterComponent := some c10Master, componentKeyToNodeIdMap := [],
    nodeIdToKeyMap := [], fileKey := "F10", fileName := "File",
    pageName := "P", pageId := "0:3", now := 9 }

/-- C10 witness: the subtree of a componentId-less instance reports
nothing, even though a matching instance sits directly inside it. -/
theorem c10_witness :
    jsonLoop c10Ctx (fun _ => false) 0 [(c10Node, ["Wrapper"])] [] = [] :=
  (c10_falsy_componentId_prunes c10Ctx c10Master 0 c10Node ["Wrapper"] [] []
    rfl rfl rfl).2

end ComponentRadar
